import Mathlib

/-!
Shallow embedding of the geometric reconstruction core:
  - offline/packages/tpccalib/TpcDirectLaserReconstruction.cc
  - offline/packages/trackreco/SecondaryVertexFinder.cc

C++ doubles/floats are modelled as real numbers; `std::vector<double>` as
`List ℝ`; output (reference) parameters as explicit inputs carrying the value
the caller supplied, returned unchanged when the source does not assign them.
Division follows Lean's total-division convention (x / 0 = 0); every theorem
that depends on a quotient establishes that its denominator is nonzero, or
notes the degenerate case explicitly.
-/

noncomputable section

open Real

/-- 3-vector with real coordinates, standing for `TVector3` / `Eigen::Vector3d`. -/
structure Vec3 where
  x : ℝ
  y : ℝ
  z : ℝ
deriving DecidableEq

namespace Vec3

def add (u v : Vec3) : Vec3 := ⟨u.x + v.x, u.y + v.y, u.z + v.z⟩

def sub (u v : Vec3) : Vec3 := ⟨u.x - v.x, u.y - v.y, u.z - v.z⟩

def smul (c : ℝ) (v : Vec3) : Vec3 := ⟨c * v.x, c * v.y, c * v.z⟩

instance : Add Vec3 := ⟨add⟩

instance : Sub Vec3 := ⟨sub⟩

instance : SMul ℝ Vec3 := ⟨smul⟩

def zero : Vec3 := ⟨0, 0, 0⟩

/-- `TVector3::Dot` / `Eigen::Vector3d::dot`. -/
def dot (u v : Vec3) : ℝ := u.x * v.x + u.y * v.y + u.z * v.z

/-- `Eigen::Vector3d::cross`. -/
def cross (u v : Vec3) : Vec3 :=
  ⟨u.y * v.z - u.z * v.y, u.z * v.x - u.x * v.z, u.x * v.y - u.y * v.x⟩

/-- `TVector3::Mag` / `Eigen::Vector3d::norm`. -/
def Mag (v : Vec3) : ℝ := Real.sqrt (dot v v)

end Vec3

/-- `std::atan2(y, x)`, embedded as the complex argument of `x + i y`;
both have range `(-pi, pi]` and agree on all inputs (with `atan2 0 0 = 0`). -/
def atan2 (y x : ℝ) : ℝ := Complex.arg ⟨x, y⟩

/-!
## Geometry primitives of TpcDirectLaserReconstruction.cc
-/

namespace TpcDirectLaserReconstruction

/-- Anonymous-namespace constant `m_phimin`. -/
def m_phimin : ℝ := 0

/-- Anonymous-namespace constant `m_phimax = 2 pi`. -/
def m_phimax : ℝ := 2 * Real.pi

/-- Anonymous-namespace constant `m_rmin`. -/
def m_rmin : ℝ := 20

/-- Anonymous-namespace constant `m_rmax`. -/
def m_rmax : ℝ := 78

/-- Anonymous-namespace constant `m_zmin`. -/
def m_zmin : ℝ := -105.5

/-- Anonymous-namespace constant `m_zmax`. -/
def m_zmax : ℝ := 105.5

/-- Helper `get_r` of the anonymous namespace: radius from x and y. -/
def get_r (x y : ℝ) : ℝ := Real.sqrt (x ^ 2 + y ^ 2)

/-- `line_circle_intersection(p, d, radius)` of the anonymous namespace:
solves `A t^2 + B t + C = 0` for the intersection of the parametric line
`p + t d` with the circle of the given radius centred at the origin of the
transverse plane; returns the `(-1, -1)` sentinel when the discriminant is
negative, else `((-B + sqrt delta)/(2A), (-B - sqrt delta)/(2A))`. -/
def line_circle_intersection (p d : Vec3) (radius : ℝ) : ℝ × ℝ :=
  let A := d.x ^ 2 + d.y ^ 2
  let B := 2 * p.x * d.x + 2 * p.y * d.y
  let C := p.x ^ 2 + p.y ^ 2 - radius ^ 2
  let delta := B ^ 2 - 4 * A * C
  if delta < 0 then (-1, -1)
  else ((-B + Real.sqrt delta) / (2 * A), (-B - Real.sqrt delta) / (2 * A))

/-- `delta_phi(phi)` of the anonymous namespace: wraps an angle by at most one
turn of `2 pi`. -/
def delta_phi (phi : ℝ) : ℝ :=
  if phi ≥ Real.pi then phi - 2 * Real.pi
  else if phi < -Real.pi then phi + 2 * Real.pi
  else phi

/-- The azimuth-wrapping loop `while(phi < m_phimin) phi += 2 pi;
while(phi >= m_phimax) phi -= 2 pi` of `get_cell_index`.  Its input is
always `std::atan2`, whose range is `(-pi, pi]`, so the first loop body runs
at most once and the second never; the loop is therefore embedded as a single
conditional increment. -/
def wrap_phi (phi : ℝ) : ℝ :=
  if phi < m_phimin then phi + 2 * Real.pi else phi

/-- Modelled from the spec: `TpcSpaceChargeMatrixContainer::get_cell_index`
(class not under src/) maps a bin triple to "a flattened cell index using
linear binning" (section 4.2); embedded as the canonical row-major
flattening of `(iphi, ir, iz)`. -/
def containerCellIndex (rbins zbins : ℕ) (iphi ir iz : ℤ) : ℤ :=
  iphi * (rbins * zbins) + ir * zbins + iz

/-- Azimuthal bin computed by `get_cell_index` (C++ truncation of a
nonnegative quotient equals the floor). -/
def iphi_of (phibins : ℕ) (x y : ℝ) : ℤ :=
  ⌊phibins * (wrap_phi (atan2 y x) - m_phimin) / (m_phimax - m_phimin)⌋

/-- Radial bin computed by `get_cell_index`. -/
def ir_of (rbins : ℕ) (x y : ℝ) : ℤ :=
  ⌊rbins * (get_r x y - m_rmin) / (m_rmax - m_rmin)⌋

/-- Longitudinal bin computed by `get_cell_index`. -/
def iz_of (zbins : ℕ) (z : ℝ) : ℤ :=
  ⌊zbins * (z - m_zmin) / (m_zmax - m_zmin)⌋

/-- `TpcDirectLaserReconstruction::get_cell_index(global)`: wraps the azimuth,
validates the radius and the z coordinate against the fixed ranges (returning
the sentinel -1 outside them), and forwards the bin triple to the matrix
container. -/
def get_cell_index (phibins rbins zbins : ℕ) (global : Vec3) : ℤ :=
  let r := get_r global.x global.y
  if r < m_rmin ∨ r ≥ m_rmax then -1
  else
    let z := global.z
    if z < m_zmin ∨ z ≥ m_zmax then -1
    else containerCellIndex rbins zbins
      (iphi_of phibins global.x global.y) (ir_of rbins global.x global.y) (iz_of zbins z)

/-- `TpcDirectLaserReconstruction::Locate(r, phi, z)`: fixed lookup of the GEM
module id from angle/radius bins, documented in the source as an "integer from
1 to 72".  The two search loops stop at the first matching bin; their bins are
pairwise disjoint open intervals, so the loops are embedded as conditional
chains (the impossible first angle condition `23 pi/12 < phi < pi/12` is kept
as written). -/
def Locate (r phi z : ℝ) : ℤ :=
  let r_id : ℤ :=
    if 30 < r ∧ r < 46 then 1
    else if 46 < r ∧ r < 62 then 2
    else if 62 < r ∧ r < 78 then 3
    else 0
  let angle_id : ℤ :=
    if 23 * Real.pi / 12 < phi ∧ phi < Real.pi / 12 then 0
    else if Real.pi / 12 < phi ∧ phi < 3 * Real.pi / 12 then 1
    else if 3 * Real.pi / 12 < phi ∧ phi < 5 * Real.pi / 12 then 2
    else if 5 * Real.pi / 12 < phi ∧ phi < 7 * Real.pi / 12 then 3
    else if 7 * Real.pi / 12 < phi ∧ phi < 9 * Real.pi / 12 then 4
    else if 9 * Real.pi / 12 < phi ∧ phi < 11 * Real.pi / 12 then 5
    else if 11 * Real.pi / 12 < phi ∧ phi < 13 * Real.pi / 12 then 6
    else if 13 * Real.pi / 12 < phi ∧ phi < 15 * Real.pi / 12 then 7
    else if 15 * Real.pi / 12 < phi ∧ phi < 17 * Real.pi / 12 then 8
    else if 17 * Real.pi / 12 < phi ∧ phi < 19 * Real.pi / 12 then 9
    else if 19 * Real.pi / 12 < phi ∧ phi < 21 * Real.pi / 12 then 10
    else if 21 * Real.pi / 12 < phi ∧ phi < 23 * Real.pi / 12 then 11
    else 0
  let side_id : ℤ := if z < 0 then 1 else 0
  36 * side_id + 3 * angle_id + r_id

end TpcDirectLaserReconstruction

namespace TpcDirectLaserReconstruction

/-- A digitized TPC hit inside one hitset: pad bin, time bin and raw adc. -/
structure RawHit where
  phibin : ℕ
  tbin : ℕ
  adc : ℝ

/-- One entry of the `TRKR_HITSET` container: its layer and side (both decoded
from the hitset key) and its hits. -/
structure Hitset where
  layer : ℕ
  side : ℕ
  hits : List RawHit

/-- Per-layer data served by the external geometry container
(`PHG4TpcCylinderGeom`): centre radius, thickness, time-bin count and the
bin-centre lookups. -/
structure LayerGeom where
  radius : ℝ
  thickness : ℝ
  zbins : ℕ
  phicenter : ℕ → ℝ
  zcenter : ℕ → ℝ

/-- Configuration of TpcDirectLaserReconstruction used by `process_track`,
together with the matrix-container grid dimensions. -/
structure LaserParams where
  max_dca : ℝ
  max_zrange : ℝ
  pedestal : ℝ
  drift_velocity : ℝ
  phibins : ℕ
  rbins : ℕ
  zbins : ℕ

/-- Global position of a raw hit, as derived in the hit loop of
`process_track` from the layer radius, the pad-centre azimuth and the drift
time (`AdcClockPeriod = 53 ns`). -/
def hit_global (P : LaserParams) (G : ℕ → LayerGeom) (hs : Hitset) (h : RawHit) : Vec3 :=
  let lg := G hs.layer
  let phi := lg.phicenter h.phibin
  let x := lg.radius * Real.cos phi
  let y := lg.radius * Real.sin phi
  let AdcClockPeriod : ℝ := 53.0
  let tdriftmax := AdcClockPeriod * lg.zbins / 2
  let zdriftlength := lg.zcenter h.tbin * P.drift_velocity
  let z0 := tdriftmax * P.drift_velocity - zdriftlength
  ⟨x, y, if hs.side = 0 then -z0 else z0⟩

/-- DCA of a hit position to the track line, as computed in the hit loop of
`process_track`. -/
def hit_dca (origin direction global : Vec3) : ℝ :=
  let oc := global - origin
  let t := Vec3.dot direction oc / (Vec3.Mag direction) ^ 2
  let om := t • direction
  Vec3.Mag (oc - om)

/-- An entry of `cluspos_map`: the layer key, the pedestal-subtracted adc and
the global position of a hit that passed the DCA association cut. -/
structure MatchedHit where
  layer : ℕ
  adc : ℝ
  pos : Vec3

/-- The hits that pass the DCA association cut (`dca > m_max_dca` skips),
in hit-loop order, as inserted into `cluspos_map` and `layer_bin_set`. -/
def matched_hits (P : LaserParams) (G : ℕ → LayerGeom) (origin direction : Vec3)
    (hitsets : List Hitset) : List MatchedHit :=
  hitsets.flatMap fun hs =>
    (hs.hits.filter fun h =>
      if hit_dca origin direction (hit_global P G hs h) > P.max_dca then false else true).map
      fun h => ⟨hs.layer, h.adc - P.pedestal, hit_global P G hs h⟩

/-- The layer loop body of `process_track`, deciding whether the layer's
centroid is accumulated into the distortion matrices (the
`m_accepted_clusters` increment): traversal checks against the outer, inner
and centre layer radii, the charge-weighted centroid with the z-range
rejection, the transit-time correction, and the grid-cell validity check.
The `std::isnan` sanity checks of the source cannot fire in the real-number
model and the histogram fills have no bearing on the counters; both are
omitted. -/
def accept_layer (P : LaserParams) (G : ℕ → LayerGeom) (origin direction : Vec3)
    (mhits : List MatchedHit) (layer : ℕ) : Bool :=
  let lg := G layer
  let layer_center_radius := lg.radius
  let layer_inner_radius := layer_center_radius - lg.thickness / 2
  let layer_outer_radius := layer_center_radius + lg.thickness / 2
  let tupdn_out := line_circle_intersection origin direction layer_outer_radius
  if tupdn_out.1 ≤ 0 ∧ tupdn_out.2 ≤ 0 then false
  else
    let tupdn_in := line_circle_intersection origin direction layer_inner_radius
    if tupdn_in.1 ≤ 0 ∧ tupdn_in.2 ≤ 0 then false
    else
      let tupdn := line_circle_intersection origin direction layer_center_radius
      let t := if tupdn.2 > 0 ∧ tupdn.2 < tupdn.1 then tupdn.2 else tupdn.1
      if t < 0 then false
      else
        let om := t • direction
        let projection := origin + om
        let layerHits := mhits.filter fun m => m.layer == layer
        let kept := layerHits.filter fun m =>
          if |m.pos.z - projection.z| > P.max_zrange then false else true
        let wt := (kept.map (·.adc)).sum
        let cx := (kept.map fun m => m.pos.x * m.adc).sum / wt
        let cy := (kept.map fun m => m.pos.y * m.adc).sum / wt
        let cz0 := (kept.map fun m => m.pos.z * m.adc).sum / wt
        let zmin := kept.foldl (fun acc m => if m.pos.z < acc then m.pos.z else acc) 999
        let zmax := kept.foldl (fun acc m => if m.pos.z > acc then m.pos.z else acc) (-999)
        let zrange := zmax - zmin
        if zrange > P.max_zrange then false
        else
          let pathlength := Vec3.Mag om
          let ns_per_cm := (1e9 : ℝ) / 3e10
          let dt := pathlength * ns_per_cm
          let transit_dz := dt * P.drift_velocity
          let cz := if origin.z > 0 then cz0 + transit_dz else cz0 - transit_dz
          let clus_centroid : Vec3 := ⟨cx, cy, cz⟩
          let i := get_cell_index P.phibins P.rbins P.zbins clus_centroid
          if i < 0 then false else true

/-- The running counters `m_total_hits`, `m_matched_hits`,
`m_accepted_clusters`. -/
structure Counters where
  total : ℕ
  matched : ℕ
  accepted : ℕ

/-- A laser track: origin position and direction from the track record. -/
structure LaserTrack where
  x : ℝ
  y : ℝ
  z : ℝ
  px : ℝ
  py : ℝ
  pz : ℝ

/-- Counter effect of `TpcDirectLaserReconstruction::process_track`:
`m_total_hits` grows by every hit seen, `m_matched_hits` by every hit passing
the DCA cut, and `m_accepted_clusters` once for each layer of
`layer_bin_set` whose centroid passes the layer-loop checks.  The matrix
accumulation itself and the histogram fills do not touch the counters and are
not modelled here. -/
def process_track (P : LaserParams) (G : ℕ → LayerGeom) (tr : LaserTrack)
    (hitsets : List Hitset) (c : Counters) : Counters :=
  let origin : Vec3 := ⟨tr.x, tr.y, tr.z⟩
  let direction : Vec3 := ⟨tr.px, tr.py, tr.pz⟩
  let mh := matched_hits P G origin direction hitsets
  let layer_bin_set := (mh.map (·.layer)).toFinset
  { total := c.total + (hitsets.map (·.hits.length)).sum
    matched := c.matched + mh.length
    accepted := c.accepted +
      (layer_bin_set.filter fun layer => accept_layer P G origin direction mh layer = true).card }

/-- `TpcDirectLaserReconstruction::process_tracks`: every track of the event
is processed against the event's hit collection. -/
def process_tracks (P : LaserParams) (G : ℕ → LayerGeom) (tracks : List LaserTrack)
    (hitsets : List Hitset) (c : Counters) : Counters :=
  tracks.foldl (fun acc tr => process_track P G tr hitsets acc) c

end TpcDirectLaserReconstruction

/-!
## Geometry primitives of SecondaryVertexFinder.cc
-/

namespace SecondaryVertexFinder

/-- `SecondaryVertexFinder::circle_circle_intersection(r0,x0,y0,r1,x1,y1,ret)`:
two-circle intersection in the transverse plane.  The boolean is the C++
return value; the list is the contents appended to the output vector
`intersectionXY` (x and y coordinates pushed singly, so two entries represent
one point and four entries two points). -/
def circle_circle_intersection (r0 x0 y0 r1 x1 y1 : ℝ) : Bool × List ℝ :=
  let d := Real.sqrt ((x0 - x1) ^ 2 + (y0 - y1) ^ 2)
  if d < |r1 - r0| then (false, [])
  else if d > r0 + r1 then
    -- near-tangency special case, tolerance dr = 0.2 cm
    if |d - (r0 + r1)| < 0.2 then
      let u0n := Real.sqrt ((x1 - x0) ^ 2 + (y1 - y0) ^ 2)
      let u0x := (x1 - x0) / u0n
      let u0y := (y1 - y0) / u0n
      let pca0x := x0 + u0x * r0
      let pca0y := y0 + u0y * r0
      let u1n := Real.sqrt ((x0 - x1) ^ 2 + (y0 - y1) ^ 2)
      let u1x := (x0 - x1) / u1n
      let u1y := (y0 - y1) / u1n
      let pca1x := x1 + u1x * r1
      let pca1y := y1 + u1y * r1
      (true, [(pca0x + pca1x) / 2, (pca0y + pca1y) / 2])
    else (false, [])
  else
    let a := (r0 * r0 - r1 * r1 + d * d) / (2 * d)
    let h := Real.sqrt (r0 * r0 - a * a)
    let x2 := x0 + a * (x1 - x0) / d
    let y2 := y0 + a * (y1 - y0) / d
    (true, [x2 + h * (y1 - y0) / d, y2 - h * (x1 - x0) / d,
            x2 - h * (y1 - y0) / d, y2 + h * (x1 - x0) / d])

/-- `SecondaryVertexFinder::dcaTwoLines(a1, b1, a2, b2, PCA1, PCA2)`: skew-line
closest approach.  `pca1` and `pca2` carry the values of the caller's output
variables, returned unchanged on the parallel (`|b1 x b2| = 0`) early return,
on which no division by the cross-product norm or by `b2 . b1` occurs. -/
def dcaTwoLines (a1 b1 a2 b2 : Vec3) (pca1 pca2 : Vec3) : ℝ × Vec3 × Vec3 :=
  let bcrossb := Vec3.cross b1 b2
  let mag_bcrossb := Vec3.Mag bcrossb
  let aminusa := a2 - a1
  if mag_bcrossb ≠ 0 then
    let dca := Vec3.dot bcrossb aminusa / mag_bcrossb
    let X := Vec3.dot b1 b2 - Vec3.dot b1 b1 * Vec3.dot b2 b2 / Vec3.dot b2 b1
    let Y := (Vec3.dot a2 b2 - Vec3.dot a1 b2) -
      (Vec3.dot a2 b1 - Vec3.dot a1 b1) * Vec3.dot b2 b2 / Vec3.dot b2 b1
    let c := Y / X
    let F := Vec3.dot b1 b1 / Vec3.dot b2 b1
    let G := -(Vec3.dot a2 b1 - Vec3.dot a1 b1) / Vec3.dot b2 b1
    let d := c * F + G
    (dca, a1 + c • b1, a2 + d • b2)
  else (999, pca1, pca2)

/-- `SecondaryVertexFinder::findPcaTwoLines(pos1, mom1, pos2, mom2, dca, PCA1,
PCA2)`: normalizes the two momenta componentwise and then runs the skew-line
closest-approach computation, which the source duplicates verbatim from
`dcaTwoLines` rather than calling it; the duplication is mirrored here.
`pca1`/`pca2` again carry the caller's output values for the parallel early
return. -/
def findPcaTwoLines (pos1 mom1 pos2 mom2 : Vec3) (pca1 pca2 : Vec3) : ℝ × Vec3 × Vec3 :=
  let a1 : Vec3 := ⟨pos1.x, pos1.y, pos1.z⟩
  let b1 : Vec3 := ⟨mom1.x / Vec3.Mag mom1, mom1.y / Vec3.Mag mom1, mom1.z / Vec3.Mag mom1⟩
  let a2 : Vec3 := ⟨pos2.x, pos2.y, pos2.z⟩
  let b2 : Vec3 := ⟨mom2.x / Vec3.Mag mom2, mom2.y / Vec3.Mag mom2, mom2.z / Vec3.Mag mom2⟩
  let bcrossb := Vec3.cross b1 b2
  let mag_bcrossb := Vec3.Mag bcrossb
  let aminusa := a2 - a1
  if mag_bcrossb ≠ 0 then
    let dca := Vec3.dot bcrossb aminusa / mag_bcrossb
    let X := Vec3.dot b1 b2 - Vec3.dot b1 b1 * Vec3.dot b2 b2 / Vec3.dot b2 b1
    let Y := (Vec3.dot a2 b2 - Vec3.dot a1 b2) -
      (Vec3.dot a2 b1 - Vec3.dot a1 b1) * Vec3.dot b2 b2 / Vec3.dot b2 b1
    let c := Y / X
    let F := Vec3.dot b1 b1 / Vec3.dot b2 b1
    let G := -(Vec3.dot a2 b1 - Vec3.dot a1 b1) / Vec3.dot b2 b1
    let d := c * F + G
    (dca, a1 + c • b1, a2 + d • b2)
  else (999, pca1, pca2)

/-- Track data consumed by `process_event`: position, momentum, charge, quality,
TPC-seed cluster count (`size_cluster_keys`), vertex id and the presence of a
silicon seed (`hasSiliconSeed`). -/
structure Track where
  x : ℝ
  y : ℝ
  z : ℝ
  px : ℝ
  py : ℝ
  pz : ℝ
  charge : ℤ
  quality : ℝ
  ntpc : ℕ
  vertex_id : ℕ
  has_silicon : Bool

/-- Vertex data returned by the external `SvtxVertexMap`: position and
`size_tracks`. -/
structure Vertex where
  x : ℝ
  y : ℝ
  z : ℝ
  ntracks : ℕ

/-- Configuration members of SecondaryVertexFinder used by `process_event`. -/
structure Params where
  require_mvtx : Bool
  qual_cut : ℝ
  track_dcaxy_cut : ℝ
  track_dcaz_cut : ℝ
  max_intersection_radius : ℝ
  projected_track_z_cut : ℝ
  two_track_dcacut : ℝ
  min_path_cut : ℝ
  decaymass : ℝ

/-- External collaborators of `process_event`:
`vertexOf` is the `SvtxVertexMap` lookup (the source dereferences the result
without a null check, so the lookup is modelled as total);
`fitpars` is `fitClusters`, whose circle and line fits are performed by the
external `TrackFitUtils` over externally stored clusters — it returns either
an empty list (too few clusters) or `[R, X0, Y0, slope, intercept]`;
`project` is `projectTrackToCylinder`, whose propagation to the cylinder at
the given radius is performed by the external Acts propagator, `none` meaning
a failed propagation. -/
structure Ext where
  vertexOf : ℕ → Vertex
  fitpars : Track → List ℝ
  project : Track → ℝ → Option (Vec3 × Vec3)

/-- `SecondaryVertexFinder::get_dca(track, ...)`: impact parameters of a track
relative to its event vertex, obtained by rotating the vertex-relative
position into the frame aligned with `mom x zhat`.  Returns
`(dca3dxy, dca3dz)`; the two sigma outputs, which no caller cut or ntuple
field uses, are not modelled. -/
def get_dca (vtx : Vertex) (track : Track) : ℝ × ℝ :=
  let posx := track.x - vtx.x
  let posy := track.y - vtx.y
  let posz := track.z - vtx.z
  let r := Vec3.cross ⟨track.px, track.py, track.pz⟩ ⟨0, 0, 1⟩
  let phi := atan2 r.y r.x
  (Real.cos phi * posx - Real.sin phi * posy, posz)

/-- `SecondaryVertexFinder::findTwoTrackIntersection(track1, track2,
intersect1, intersect2)`: fits both TPC seeds and intersects the fitted
circles.  `i1`/`i2` carry the caller's output variables; `i2` is returned
unchanged unless the intersection vector holds four entries. -/
def findTwoTrackIntersection (fitpars : Track → List ℝ) (track1 track2 : Track)
    (i1 i2 : ℝ × ℝ) : Bool × (ℝ × ℝ) × (ℝ × ℝ) :=
  let fp1 := fitpars track1
  if fp1.length = 0 then (false, i1, i2)
  else
    let fp2 := fitpars track2
    if fp2.length = 0 then (false, i1, i2)
    else
      match circle_circle_intersection (fp1.getD 0 0) (fp1.getD 1 0) (fp1.getD 2 0)
        (fp2.getD 0 0) (fp2.getD 1 0) (fp2.getD 2 0) with
      | (false, _) => (false, i1, i2)
      | (true, pts) =>
          (true, (pts.getD 0 0, pts.getD 1 0),
           if pts.length = 4 then (pts.getD 2 0, pts.getD 3 0) else i2)

/-- The record emitted for an accepted pair: the arguments of `fillNtp`
together with the mass and transverse momentum filled into `recomass`. -/
structure Candidate where
  tr1 : Track
  tr2 : Track
  dca3dxy1 : ℝ
  dca3dz1 : ℝ
  dca3dxy2 : ℝ
  dca3dz2 : ℝ
  pca1 : Vec3
  pca2 : Vec3
  pair_dca : ℝ
  invariantMass : ℝ
  invariantPt : ℝ
  path : ℝ
  has_silicon_1 : ℤ
  has_silicon_2 : ℤ

/-- Body of the `process_event` intersection loop for one candidate
intersection point: radius cut, projection of both tracks to the cylinder,
z-match cut, skew-line closest approach with the pair-DCA cut, invariant mass
(`TLorentzVector` sum) and the decay-length cut, emitting at most one
candidate. -/
def processIntersection (P : Params) (E : Ext) (tr1 tr2 : Track)
    (dca3dxy1 dca3dz1 dca3dxy2 dca3dz2 : ℝ) (hs1 hs2 : ℤ) (pt : ℝ × ℝ) :
    List Candidate :=
  if Real.sqrt (pt.1 ^ 2 + pt.2 ^ 2) = 0 then []   -- intersection[i].norm() == 0
  else
    let vradius := Real.sqrt (pt.1 * pt.1 + pt.2 * pt.2)
    if vradius > P.max_intersection_radius then []
    else
      match E.project tr1 vradius with
      | none => []
      | some (vpos1, vmom1) =>
        match E.project tr2 vradius with
        | none => []
        | some (vpos2, vmom2) =>
          if |vpos1.z - vpos2.z| > P.projected_track_z_cut then []
          else
            let res := findPcaTwoLines vpos1 vmom1 vpos2 vmom2 Vec3.zero Vec3.zero
            let pair_dca := res.1
            let PCA1 := res.2.1
            let PCA2 := res.2.2
            if |pair_dca| > P.two_track_dcacut then []
            else
              let E1 := Real.sqrt (vmom1.x ^ 2 + vmom1.y ^ 2 + vmom1.z ^ 2 + P.decaymass ^ 2)
              let E2 := Real.sqrt (vmom2.x ^ 2 + vmom2.y ^ 2 + vmom2.z ^ 2 + P.decaymass ^ 2)
              let psum := vmom1 + vmom2
              let Esum := E1 + E2
              -- TLorentzVector::M of the sum
              let mm := Esum ^ 2 - (psum.x ^ 2 + psum.y ^ 2 + psum.z ^ 2)
              let mass := if mm < 0 then -Real.sqrt (-mm) else Real.sqrt mm
              let ptv := Real.sqrt (psum.x ^ 2 + psum.y ^ 2)
              let PCA := (0.5 : ℝ) • (PCA1 + PCA2)
              let vertex1 := E.vertexOf tr1.vertex_id
              let VTX : Vec3 := ⟨vertex1.x, vertex1.y, vertex1.z⟩
              let path := PCA - VTX
              if Vec3.Mag path > P.min_path_cut then
                [⟨tr1, tr2, dca3dxy1, dca3dz1, dca3dxy2, dca3dz2, PCA1, PCA2,
                  pair_dca, mass, ptv, Vec3.Mag path, hs1, hs2⟩]
              else []

/-- Body of the inner (`tr2`) loop of `process_event`: the `continue` guards
on the second track followed by the circle-circle intersection and the
processing of both intersection slots.  The local array
`Eigen::Vector2d intersection[2]` is default-initialized; its initial
contents are modelled as the origin. -/
def processPair (P : Params) (E : Ext) (tr1 : Track) (dca3dxy1 dca3dz1 : ℝ)
    (hs1 : ℤ) (tr2 : Track) : List Candidate :=
  if P.require_mvtx ∧ ¬ tr2.has_silicon then []
  else
    let hs2 : ℤ := if tr2.has_silicon then 1 else 0
    if tr2.charge = tr1.charge then []
    else if tr2.quality > P.qual_cut then []
    else if tr2.ntpc < 20 then []
    else
      let dca2 := get_dca (E.vertexOf tr2.vertex_id) tr2
      if dca2.1 = 0 then []   -- if(!dca3dxy2)
      else if |dca2.1| < P.track_dcaxy_cut then []
      else if |dca2.2| < P.track_dcaz_cut then []
      else
        match findTwoTrackIntersection E.fitpars tr1 tr2 (0, 0) (0, 0) with
        | (false, _, _) => []
        | (true, i1, i2) =>
            processIntersection P E tr1 tr2 dca3dxy1 dca3dz1 dca2.1 dca2.2 hs1 hs2 i1 ++
            processIntersection P E tr1 tr2 dca3dxy1 dca3dz1 dca2.1 dca2.2 hs1 hs2 i2

/-- The `continue` guards applied to the outer-loop track of
`process_event`: reconstructed vertex present, optional silicon-seed
requirement, quality cut, TPC cluster-count cut, and the impact-parameter
cuts on `get_dca`. -/
def outerPass (P : Params) (E : Ext) (tr1 : Track) : Bool :=
  if (E.vertexOf tr1.vertex_id).ntracks = 0 then false
  else if P.require_mvtx ∧ ¬ tr1.has_silicon then false
  else if tr1.quality > P.qual_cut then false
  else if tr1.ntpc < 20 then false
  else
    let dca1 := get_dca (E.vertexOf tr1.vertex_id) tr1
    if dca1.1 = 0 then false   -- if(!dca3dxy1)
    else if |dca1.1| < P.track_dcaxy_cut then false
    else if |dca1.2| < P.track_dcaz_cut then false
    else true

/-- `SecondaryVertexFinder::process_event`: iterates all unordered pairs of
distinct tracks (inner loop starting after the outer track) and collects
every emitted candidate. -/
def process_event (P : Params) (E : Ext) : List Track → List Candidate
  | [] => []
  | tr1 :: rest =>
      (if outerPass P E tr1 then
        let hs1 : ℤ := if tr1.has_silicon then 1 else 0
        let dca1 := get_dca (E.vertexOf tr1.vertex_id) tr1
        rest.flatMap (processPair P E tr1 dca1.1 dca1.2 hs1)
      else []) ++ process_event P E rest

/-!
### Concrete fixtures used to instantiate the theorems below
-/

/-- A positive track at (1,0,5) with momentum along +y. -/
def wTrack1 : Track := ⟨1, 0, 5, 0, 1, 0, 1, 0, 20, 0, false⟩

/-- A negative track at (-1,0,5) with momentum along -y. -/
def wTrack2 : Track := ⟨-1, 0, 5, 0, -1, 0, -1, 0, 20, 0, false⟩

/-- Cut configuration used by the fixtures. -/
def wParams : Params := ⟨false, 10, 0.5, 0.5, 20, 1, 2, 0.1, 0⟩

/-- Collaborators for the fixtures: a single event vertex at the origin with
one associated track, circle fits of radius 1 centred at (0,0) and (1.6,0),
and cylinder projections yielding two skew rays 0.5 apart in z. -/
def wExt : Ext := ⟨fun _ => ⟨0, 0, 0, 1⟩,
  fun t => if t.charge = 1 then [1, 0, 0, 0, 0] else [1, 1.6, 0, 0, 0],
  fun t _ => if t.charge = 1 then some (⟨0, 0, 0⟩, ⟨1, 0, 0⟩)
             else some (⟨0, 0, 0.5⟩, ⟨3, 4, 0⟩)⟩

/-- The candidate emitted for the pair `(wTrack1, wTrack2)` under `wParams`
and `wExt`. -/
def wCandidate : Candidate :=
  ⟨wTrack1, wTrack2, 1, 5, 1, 5, ⟨0, 0, 0⟩, ⟨0, 0, 1 / 2⟩, 1 / 2, 2, Real.sqrt 32, 1 / 4, 0, 0⟩

/-- A positive track fixture for the near-tangency intersection scenario. -/
def wtTrackA : Track := ⟨0, 0, 0, 0, 0, 0, 1, 0, 0, 0, false⟩

/-- A negative track fixture for the near-tangency intersection scenario. -/
def wtTrackB : Track := ⟨0, 0, 0, 0, 0, 0, -1, 0, 0, 0, false⟩

/-- Circle fits of radius 1 centred at (0,0) and (2.1,0): barely-touching
circles (gap 0.1, inside the 0.2 tolerance). -/
def wtFitpars : Track → List ℝ :=
  fun t => if t.charge = 1 then [1, 0, 0, 0, 0] else [1, 2.1, 0, 0, 0]

end SecondaryVertexFinder

namespace TpcDirectLaserReconstruction

/-- Trivial laser configuration for instantiating the counter invariant. -/
def wLaserParams : LaserParams := ⟨0, 0, 0, 0, 0, 0, 0⟩

/-- Trivial layer geometry for instantiating the counter invariant. -/
def wLayerGeom : ℕ → LayerGeom := fun _ => ⟨0, 0, 0, fun _ => 0, fun _ => 0⟩

end TpcDirectLaserReconstruction

/-!
## Helper lemmas
-/

/-- Square roots of literal perfect squares. -/
theorem sqrt_of_sq {b : ℝ} (hb : 0 ≤ b) {a : ℝ} (h : a = b ^ 2) : Real.sqrt a = b := by
  rw [h, Real.sqrt_sq hb]

theorem Vec3.dot_self_nonneg (v : Vec3) : 0 ≤ Vec3.dot v v := by
  unfold Vec3.dot
  nlinarith [sq_nonneg v.x, sq_nonneg v.y, sq_nonneg v.z]

theorem Vec3.Mag_eq_zero_iff (v : Vec3) : Vec3.Mag v = 0 ↔ v = Vec3.zero := by
  unfold Vec3.Mag
  rw [Real.sqrt_eq_zero (Vec3.dot_self_nonneg v)]
  constructor
  · intro h
    obtain ⟨x, y, z⟩ := v
    simp only [Vec3.dot] at h
    have hx : x = 0 := by nlinarith
    have hy : y = 0 := by nlinarith
    have hz : z = 0 := by nlinarith
    simp [Vec3.zero, hx, hy, hz]
  · rintro rfl
    simp [Vec3.dot, Vec3.zero]

theorem Vec3.Mag_zero : Vec3.Mag Vec3.zero = 0 := (Vec3.Mag_eq_zero_iff _).2 rfl

/-!
## Claim theorems
-/

/-- Claim C7 counterexample: at the input 3 pi the function returns pi, which
is outside the claimed interval [-pi, pi). -/
theorem c7_counterexample :
    TpcDirectLaserReconstruction.delta_phi (3 * Real.pi) ∉
      Set.Ico (-Real.pi) Real.pi := by
  have hpi := Real.pi_pos
  have h : TpcDirectLaserReconstruction.delta_phi (3 * Real.pi) = Real.pi := by
    unfold TpcDirectLaserReconstruction.delta_phi
    rw [if_pos (by linarith)]
    ring
  rw [h, Set.mem_Ico]
  simp

/-- Claim C7 (amended): for every input angle in [-3 pi, 3 pi) — the function
wraps by at most one turn — delta_phi lies in [-pi, pi) and differs from its
input by an integer multiple of 2 pi. -/
theorem c7_delta_phi_wraps (phi : ℝ) (h1 : -(3 * Real.pi) ≤ phi)
    (h2 : phi < 3 * Real.pi) :
    TpcDirectLaserReconstruction.delta_phi phi ∈ Set.Ico (-Real.pi) Real.pi ∧
    ∃ k : ℤ, TpcDirectLaserReconstruction.delta_phi phi - phi = k * (2 * Real.pi) := by
  have hpi := Real.pi_pos
  unfold TpcDirectLaserReconstruction.delta_phi
  by_cases hge : phi ≥ Real.pi
  · rw [if_pos hge]
    exact ⟨Set.mem_Ico.2 ⟨by linarith, by linarith⟩, ⟨-1, by push_cast; ring⟩⟩
  · rw [if_neg hge]
    by_cases hlt : phi < -Real.pi
    · rw [if_pos hlt]
      exact ⟨Set.mem_Ico.2 ⟨by linarith, by linarith⟩, ⟨1, by push_cast; ring⟩⟩
    · rw [if_neg hlt]
      exact ⟨Set.mem_Ico.2 ⟨by linarith, by linarith⟩, ⟨0, by push_cast; ring⟩⟩

/-- Witness for C7 at the angle 2. -/
theorem c7_witness :
    (-(3 * Real.pi) ≤ (2:ℝ) ∧ (2:ℝ) < 3 * Real.pi) ∧
    (TpcDirectLaserReconstruction.delta_phi 2 ∈ Set.Ico (-Real.pi) Real.pi ∧
     ∃ k : ℤ, TpcDirectLaserReconstruction.delta_phi 2 - 2 = k * (2 * Real.pi)) :=
  ⟨⟨by linarith [Real.pi_pos], by linarith [Real.pi_gt_three]⟩,
   c7_delta_phi_wraps 2 (by linarith [Real.pi_pos]) (by linarith [Real.pi_gt_three])⟩

/-- Claim C6 counterexample: for the line through (1,0) with direction
(0,0,1) and radius 2 the discriminant is 0 (not negative), yet the returned
parameter is not a root of the quadratic: the quadratic evaluates to -3 at
the returned value, and the transverse point stays at distance 1, not 2. -/
theorem c6_counterexample :
    ¬ ((2 * (1:ℝ) * 0 + 2 * 0 * 0) ^ 2 -
        4 * ((0:ℝ) ^ 2 + 0 ^ 2) * ((1:ℝ) ^ 2 + 0 ^ 2 - 2 ^ 2) < 0) ∧
    (((0:ℝ) ^ 2 + 0 ^ 2) *
        (TpcDirectLaserReconstruction.line_circle_intersection ⟨1, 0, 0⟩ ⟨0, 0, 1⟩ 2).1 ^ 2 +
      (2 * (1:ℝ) * 0 + 2 * 0 * 0) *
        (TpcDirectLaserReconstruction.line_circle_intersection ⟨1, 0, 0⟩ ⟨0, 0, 1⟩ 2).1 +
      ((1:ℝ) ^ 2 + 0 ^ 2 - 2 ^ 2) ≠ 0) ∧
    Real.sqrt (((1:ℝ) +
        (TpcDirectLaserReconstruction.line_circle_intersection ⟨1, 0, 0⟩ ⟨0, 0, 1⟩ 2).1 * 0) ^ 2 +
      ((0:ℝ) +
        (TpcDirectLaserReconstruction.line_circle_intersection ⟨1, 0, 0⟩ ⟨0, 0, 1⟩ 2).1 * 0) ^ 2) ≠ 2 := by
  have h1 : Real.sqrt ((1:ℝ) ^ 2 + 0 ^ 2) = 1 := sqrt_of_sq (by norm_num) (by norm_num)
  refine ⟨by norm_num, by norm_num, ?_⟩
  intro h
  rw [show ((1:ℝ) + (TpcDirectLaserReconstruction.line_circle_intersection
      ⟨1, 0, 0⟩ ⟨0, 0, 1⟩ 2).1 * 0) ^ 2 + ((0:ℝ) +
      (TpcDirectLaserReconstruction.line_circle_intersection ⟨1, 0, 0⟩ ⟨0, 0, 1⟩ 2).1 * 0) ^ 2
      = (1:ℝ) ^ 2 + 0 ^ 2 by ring] at h
  rw [h1] at h
  norm_num at h

/-- Claim C6 (amended): the sentinel pair (-1,-1) is returned when the
discriminant is negative; otherwise, provided the direction has a nonzero
transverse component (A different from 0, which the claim's universal
quantification misses), both returned parameters are roots of the quadratic
A t^2 + B t + C = 0, i.e. the transverse point at either parameter lies at
distance |radius| from the coordinate origin. -/
theorem c6_line_circle_roots (p d : Vec3) (radius : ℝ) :
    ((2 * p.x * d.x + 2 * p.y * d.y) ^ 2 -
        4 * (d.x ^ 2 + d.y ^ 2) * (p.x ^ 2 + p.y ^ 2 - radius ^ 2) < 0 →
      TpcDirectLaserReconstruction.line_circle_intersection p d radius = (-1, -1)) ∧
    (0 ≤ (2 * p.x * d.x + 2 * p.y * d.y) ^ 2 -
        4 * (d.x ^ 2 + d.y ^ 2) * (p.x ^ 2 + p.y ^ 2 - radius ^ 2) →
     d.x ^ 2 + d.y ^ 2 ≠ 0 →
     ((d.x ^ 2 + d.y ^ 2) *
          (TpcDirectLaserReconstruction.line_circle_intersection p d radius).1 ^ 2 +
        (2 * p.x * d.x + 2 * p.y * d.y) *
          (TpcDirectLaserReconstruction.line_circle_intersection p d radius).1 +
        (p.x ^ 2 + p.y ^ 2 - radius ^ 2) = 0 ∧
      (d.x ^ 2 + d.y ^ 2) *
          (TpcDirectLaserReconstruction.line_circle_intersection p d radius).2 ^ 2 +
        (2 * p.x * d.x + 2 * p.y * d.y) *
          (TpcDirectLaserReconstruction.line_circle_intersection p d radius).2 +
        (p.x ^ 2 + p.y ^ 2 - radius ^ 2) = 0) ∧
     (Real.sqrt ((p.x + (TpcDirectLaserReconstruction.line_circle_intersection p d radius).1 * d.x) ^ 2 +
        (p.y + (TpcDirectLaserReconstruction.line_circle_intersection p d radius).1 * d.y) ^ 2) = |radius| ∧
      Real.sqrt ((p.x + (TpcDirectLaserReconstruction.line_circle_intersection p d radius).2 * d.x) ^ 2 +
        (p.y + (TpcDirectLaserReconstruction.line_circle_intersection p d radius).2 * d.y) ^ 2) = |radius|)) := by
  constructor
  · intro hneg
    unfold TpcDirectLaserReconstruction.line_circle_intersection
    rw [if_pos hneg]
  · intro hpos hA
    set A := d.x ^ 2 + d.y ^ 2 with hA_def
    set B := 2 * p.x * d.x + 2 * p.y * d.y with hB_def
    set C := p.x ^ 2 + p.y ^ 2 - radius ^ 2 with hC_def
    have hret : TpcDirectLaserReconstruction.line_circle_intersection p d radius =
        ((-B + Real.sqrt (B ^ 2 - 4 * A * C)) / (2 * A),
         (-B - Real.sqrt (B ^ 2 - 4 * A * C)) / (2 * A)) := by
      unfold TpcDirectLaserReconstruction.line_circle_intersection
      rw [if_neg (not_lt.2 hpos)]
    have hs : Real.sqrt (B ^ 2 - 4 * A * C) ^ 2 = B ^ 2 - 4 * A * C :=
      Real.sq_sqrt hpos
    have hroot1 : A * ((-B + Real.sqrt (B ^ 2 - 4 * A * C)) / (2 * A)) ^ 2 +
        B * ((-B + Real.sqrt (B ^ 2 - 4 * A * C)) / (2 * A)) + C = 0 := by
      field_simp
      nlinarith [hs]
    have hroot2 : A * ((-B - Real.sqrt (B ^ 2 - 4 * A * C)) / (2 * A)) ^ 2 +
        B * ((-B - Real.sqrt (B ^ 2 - 4 * A * C)) / (2 * A)) + C = 0 := by
      field_simp
      nlinarith [hs]
    rw [hret]
    refine ⟨⟨hroot1, hroot2⟩, ?_, ?_⟩
    · have hptsq : (p.x + (-B + Real.sqrt (B ^ 2 - 4 * A * C)) / (2 * A) * d.x) ^ 2 +
          (p.y + (-B + Real.sqrt (B ^ 2 - 4 * A * C)) / (2 * A) * d.y) ^ 2 = radius ^ 2 := by
        have expand : (p.x + (-B + Real.sqrt (B ^ 2 - 4 * A * C)) / (2 * A) * d.x) ^ 2 +
            (p.y + (-B + Real.sqrt (B ^ 2 - 4 * A * C)) / (2 * A) * d.y) ^ 2 =
            radius ^ 2 + (A * ((-B + Real.sqrt (B ^ 2 - 4 * A * C)) / (2 * A)) ^ 2 +
              B * ((-B + Real.sqrt (B ^ 2 - 4 * A * C)) / (2 * A)) + C) := by
          rw [hA_def, hB_def, hC_def]; ring
        rw [expand, hroot1, add_zero]
      rw [hptsq, Real.sqrt_sq_eq_abs]
    · have hptsq : (p.x + (-B - Real.sqrt (B ^ 2 - 4 * A * C)) / (2 * A) * d.x) ^ 2 +
          (p.y + (-B - Real.sqrt (B ^ 2 - 4 * A * C)) / (2 * A) * d.y) ^ 2 = radius ^ 2 := by
        have expand : (p.x + (-B - Real.sqrt (B ^ 2 - 4 * A * C)) / (2 * A) * d.x) ^ 2 +
            (p.y + (-B - Real.sqrt (B ^ 2 - 4 * A * C)) / (2 * A) * d.y) ^ 2 =
            radius ^ 2 + (A * ((-B - Real.sqrt (B ^ 2 - 4 * A * C)) / (2 * A)) ^ 2 +
              B * ((-B - Real.sqrt (B ^ 2 - 4 * A * C)) / (2 * A)) + C) := by
          rw [hA_def, hB_def, hC_def]; ring
        rw [expand, hroot2, add_zero]
      rw [hptsq, Real.sqrt_sq_eq_abs]

/-- Witness for C6: the line through the origin with direction (1,0,0) meets
the circle of radius 2, and the first returned parameter puts the point at
distance |2| from the origin. -/
theorem c6_witness :
    ((0:ℝ) ≤ (2 * (0:ℝ) * 1 + 2 * 0 * 0) ^ 2 -
        4 * ((1:ℝ) ^ 2 + 0 ^ 2) * ((0:ℝ) ^ 2 + 0 ^ 2 - 2 ^ 2)) ∧
    ((1:ℝ) ^ 2 + (0:ℝ) ^ 2 ≠ 0) ∧
    Real.sqrt (((0:ℝ) +
        (TpcDirectLaserReconstruction.line_circle_intersection ⟨0, 0, 0⟩ ⟨1, 0, 0⟩ 2).1 * 1) ^ 2 +
      ((0:ℝ) +
        (TpcDirectLaserReconstruction.line_circle_intersection ⟨0, 0, 0⟩ ⟨1, 0, 0⟩ 2).1 * 0) ^ 2) = |(2:ℝ)| :=
  ⟨by norm_num, by norm_num,
   (((c6_line_circle_roots ⟨0, 0, 0⟩ ⟨1, 0, 0⟩ 2).2 (by norm_num) (by norm_num)).2).1⟩

/-- Claim C9: code bug.  The hit position with radius 25 (inside [20,78)),
azimuth 0 (inside [0,2 pi)) and z = 5 matches no radial bin (the bins start
at 30) and no angular bin, so `Locate` returns 0 — outside the documented
range 1..72 — and the increment of `GEM_Mod_Arr[locateid-1]` then addresses
index -1, below the bounds of the 72-element array. -/
theorem c9_locate_underflow :
    TpcDirectLaserReconstruction.Locate 25 0 5 = 0 ∧
    ¬ (1 ≤ TpcDirectLaserReconstruction.Locate 25 0 5 ∧
        TpcDirectLaserReconstruction.Locate 25 0 5 ≤ 72) ∧
    TpcDirectLaserReconstruction.Locate 25 0 5 - 1 < 0 := by
  have hpi := Real.pi_pos
  have hL : TpcDirectLaserReconstruction.Locate 25 0 5 = 0 := by
    unfold TpcDirectLaserReconstruction.Locate
    rw [if_neg (by norm_num), if_neg (by norm_num), if_neg (by norm_num)]
    rw [if_neg (by rintro ⟨h, -⟩; linarith),
        if_neg (by rintro ⟨h, -⟩; linarith),
        if_neg (by rintro ⟨h, -⟩; linarith),
        if_neg (by rintro ⟨h, -⟩; linarith),
        if_neg (by rintro ⟨h, -⟩; linarith),
        if_neg (by rintro ⟨h, -⟩; linarith),
        if_neg (by rintro ⟨h, -⟩; linarith),
        if_neg (by rintro ⟨h, -⟩; linarith),
        if_neg (by rintro ⟨h, -⟩; linarith),
        if_neg (by rintro ⟨h, -⟩; linarith),
        if_neg (by rintro ⟨h, -⟩; linarith),
        if_neg (by rintro ⟨h, -⟩; linarith)]
    rw [if_neg (by norm_num)]
    ring
  refine ⟨hL, ?_, ?_⟩ <;> rw [hL] <;> norm_num

/-- Componentwise-normalized vectors have a componentwise-scaled cross
product. -/
theorem Vec3.cross_div_norm (m1 m2 : Vec3) (n1 n2 : ℝ) :
    Vec3.cross ⟨m1.x / n1, m1.y / n1, m1.z / n1⟩ ⟨m2.x / n2, m2.y / n2, m2.z / n2⟩ =
    ⟨(Vec3.cross m1 m2).x / (n1 * n2), (Vec3.cross m1 m2).y / (n1 * n2),
     (Vec3.cross m1 m2).z / (n1 * n2)⟩ := by
  unfold Vec3.cross
  simp only [Vec3.mk.injEq]
  refine ⟨?_, ?_, ?_⟩ <;> rw [div_mul_div_comm, div_mul_div_comm, ← sub_div]

/-- Claim C2: when the two direction vectors are parallel (the cross product
of the two directions has zero norm), both `dcaTwoLines` and
`findPcaTwoLines` take the early-return branch — which contains no division
by the cross-product norm or by b2.b1 — returning the sentinel dca = 999 and
leaving the caller's PCA output points unmodified. -/
theorem c2_parallel_sentinel (a1 b1 a2 b2 p1 p2 pos1 mom1 pos2 mom2 q1 q2 : Vec3) :
    (Vec3.Mag (Vec3.cross b1 b2) = 0 →
      SecondaryVertexFinder.dcaTwoLines a1 b1 a2 b2 p1 p2 = (999, p1, p2)) ∧
    (Vec3.Mag (Vec3.cross mom1 mom2) = 0 →
      SecondaryVertexFinder.findPcaTwoLines pos1 mom1 pos2 mom2 q1 q2 = (999, q1, q2)) := by
  constructor
  · intro h
    unfold SecondaryVertexFinder.dcaTwoLines
    rw [if_neg (not_not_intro h)]
  · intro h
    have hz : Vec3.cross mom1 mom2 = Vec3.zero := (Vec3.Mag_eq_zero_iff _).1 h
    have hb : Vec3.cross
        ⟨mom1.x / Vec3.Mag mom1, mom1.y / Vec3.Mag mom1, mom1.z / Vec3.Mag mom1⟩
        ⟨mom2.x / Vec3.Mag mom2, mom2.y / Vec3.Mag mom2, mom2.z / Vec3.Mag mom2⟩ =
        Vec3.zero := by
      rw [Vec3.cross_div_norm, hz]
      simp [Vec3.zero]
    have heq : SecondaryVertexFinder.findPcaTwoLines pos1 mom1 pos2 mom2 q1 q2 =
        SecondaryVertexFinder.dcaTwoLines pos1
          ⟨mom1.x / Vec3.Mag mom1, mom1.y / Vec3.Mag mom1, mom1.z / Vec3.Mag mom1⟩
          pos2
          ⟨mom2.x / Vec3.Mag mom2, mom2.y / Vec3.Mag mom2, mom2.z / Vec3.Mag mom2⟩
          q1 q2 := rfl
    rw [heq]
    unfold SecondaryVertexFinder.dcaTwoLines
    rw [hb]
    simp [Vec3.Mag_zero]

/-- Witness for C2 with the parallel directions (1,0,0) and (2,0,0). -/
theorem c2_witness :
    Vec3.Mag (Vec3.cross ⟨1, 0, 0⟩ ⟨2, 0, 0⟩) = 0 ∧
    SecondaryVertexFinder.dcaTwoLines ⟨0, 0, 0⟩ ⟨1, 0, 0⟩ ⟨0, 0, 1⟩ ⟨2, 0, 0⟩
      ⟨3, 3, 3⟩ ⟨4, 4, 4⟩ = (999, ⟨3, 3, 3⟩, ⟨4, 4, 4⟩) ∧
    SecondaryVertexFinder.findPcaTwoLines ⟨0, 0, 0⟩ ⟨1, 0, 0⟩ ⟨0, 0, 1⟩ ⟨2, 0, 0⟩
      ⟨5, 5, 5⟩ ⟨6, 6, 6⟩ = (999, ⟨5, 5, 5⟩, ⟨6, 6, 6⟩) := by
  have hm : Vec3.Mag (Vec3.cross ⟨1, 0, 0⟩ ⟨2, 0, 0⟩) = 0 := by
    norm_num [Vec3.cross, Vec3.Mag, Vec3.dot]
  exact ⟨hm,
    (c2_parallel_sentinel ⟨0, 0, 0⟩ ⟨1, 0, 0⟩ ⟨0, 0, 1⟩ ⟨2, 0, 0⟩ ⟨3, 3, 3⟩ ⟨4, 4, 4⟩
      ⟨0, 0, 0⟩ ⟨1, 0, 0⟩ ⟨0, 0, 1⟩ ⟨2, 0, 0⟩ ⟨5, 5, 5⟩ ⟨6, 6, 6⟩).1 hm,
    (c2_parallel_sentinel ⟨0, 0, 0⟩ ⟨1, 0, 0⟩ ⟨0, 0, 1⟩ ⟨2, 0, 0⟩ ⟨3, 3, 3⟩ ⟨4, 4, 4⟩
      ⟨0, 0, 0⟩ ⟨1, 0, 0⟩ ⟨0, 0, 1⟩ ⟨2, 0, 0⟩ ⟨5, 5, 5⟩ ⟨6, 6, 6⟩).2 hm⟩

/-- Claim C8: `findPcaTwoLines` on positions and (nonzero) momenta computes
exactly what `dcaTwoLines` computes on the same positions and the
componentwise-normalized momenta — the source duplicates the code, and the
two copies agree definitionally. -/
theorem c8_findPca_refines_dca (pos1 mom1 pos2 mom2 p1 p2 : Vec3)
    (h1 : mom1 ≠ Vec3.zero) (h2 : mom2 ≠ Vec3.zero) :
    SecondaryVertexFinder.findPcaTwoLines pos1 mom1 pos2 mom2 p1 p2 =
    SecondaryVertexFinder.dcaTwoLines pos1
      ⟨mom1.x / Vec3.Mag mom1, mom1.y / Vec3.Mag mom1, mom1.z / Vec3.Mag mom1⟩
      pos2
      ⟨mom2.x / Vec3.Mag mom2, mom2.y / Vec3.Mag mom2, mom2.z / Vec3.Mag mom2⟩
      p1 p2 := rfl

/-- Witness for C8 with the skew rays along (1,0,0) and (0,1,0). -/
theorem c8_witness :
    (Vec3.mk 1 0 0 ≠ Vec3.zero) ∧ (Vec3.mk 0 1 0 ≠ Vec3.zero) ∧
    SecondaryVertexFinder.findPcaTwoLines ⟨0, 0, 0⟩ ⟨1, 0, 0⟩ ⟨0, 0, 1⟩ ⟨0, 1, 0⟩
      ⟨5, 5, 5⟩ ⟨6, 6, 6⟩ =
    SecondaryVertexFinder.dcaTwoLines ⟨0, 0, 0⟩
      ⟨1 / Vec3.Mag ⟨1, 0, 0⟩, 0 / Vec3.Mag ⟨1, 0, 0⟩, 0 / Vec3.Mag ⟨1, 0, 0⟩⟩
      ⟨0, 0, 1⟩
      ⟨0 / Vec3.Mag ⟨0, 1, 0⟩, 1 / Vec3.Mag ⟨0, 1, 0⟩, 0 / Vec3.Mag ⟨0, 1, 0⟩⟩
      ⟨5, 5, 5⟩ ⟨6, 6, 6⟩ := by
  have h1 : Vec3.mk 1 0 0 ≠ Vec3.zero := by simp [Vec3.zero]
  have h2 : Vec3.mk 0 1 0 ≠ Vec3.zero := by simp [Vec3.zero]
  exact ⟨h1, h2,
    c8_findPca_refines_dca ⟨0, 0, 0⟩ ⟨1, 0, 0⟩ ⟨0, 0, 1⟩ ⟨0, 1, 0⟩ ⟨5, 5, 5⟩ ⟨6, 6, 6⟩ h1 h2⟩

/-- Claim C1 counterexample: unit circles centred at (0,0) and (1.9,0) have
centre distance 1.9, within 0.2 of r0+r1 = 2, yet the routine produces two
intersection points (four pushed coordinates), not the single claimed point:
the near-tangency single-point case fires only for d strictly above r0+r1. -/
theorem c1_counterexample :
    |Real.sqrt (((0:ℝ) - 1.9) ^ 2 + ((0:ℝ) - 0) ^ 2) - (1 + 1)| < 0.2 ∧
    (SecondaryVertexFinder.circle_circle_intersection 1 0 0 1 1.9 0).2.length ≠ 2 := by
  have hd : Real.sqrt (((0:ℝ) - 1.9) ^ 2 + ((0:ℝ) - 0) ^ 2) = 1.9 :=
    sqrt_of_sq (by norm_num) (by norm_num)
  constructor
  · rw [hd, abs_lt]; constructor <;> norm_num
  · simp only [SecondaryVertexFinder.circle_circle_intersection]
    rw [hd, if_neg (by norm_num), if_neg (by norm_num)]
    simp

/-- Claim C1 (amended): for circles (nonnegative radii) with centre distance
d: failure with no points when d < |r1-r0|, or when d exceeds r0+r1 by at
least the 0.2 tolerance; success with exactly one point — the midpoint of the
two circles' nearest-approach points — when d exceeds r0+r1 by less than 0.2
(the special case fires only for d strictly greater than r0+r1, not for d
within the tolerance below it); success with two points whenever
|r1-r0| ≤ d ≤ r0+r1. -/
theorem c1_circle_circle (r0 x0 y0 r1 x1 y1 d : ℝ)
    (hr0 : 0 ≤ r0) (hr1 : 0 ≤ r1)
    (hd : d = Real.sqrt ((x0 - x1) ^ 2 + (y0 - y1) ^ 2)) :
    (d < |r1 - r0| →
      SecondaryVertexFinder.circle_circle_intersection r0 x0 y0 r1 x1 y1 = (false, [])) ∧
    (d > r0 + r1 → 0.2 ≤ |d - (r0 + r1)| →
      SecondaryVertexFinder.circle_circle_intersection r0 x0 y0 r1 x1 y1 = (false, [])) ∧
    (d > r0 + r1 → |d - (r0 + r1)| < 0.2 →
      SecondaryVertexFinder.circle_circle_intersection r0 x0 y0 r1 x1 y1 =
        (true, [((x0 + (x1 - x0) / d * r0) + (x1 + (x0 - x1) / d * r1)) / 2,
                ((y0 + (y1 - y0) / d * r0) + (y1 + (y0 - y1) / d * r1)) / 2]) ∧
      (SecondaryVertexFinder.circle_circle_intersection r0 x0 y0 r1 x1 y1).2.length = 2) ∧
    (¬ (d < |r1 - r0|) → ¬ (d > r0 + r1) →
      (SecondaryVertexFinder.circle_circle_intersection r0 x0 y0 r1 x1 y1).1 = true ∧
      (SecondaryVertexFinder.circle_circle_intersection r0 x0 y0 r1 x1 y1).2.length = 4) := by
  have hu0 : Real.sqrt ((x1 - x0) ^ 2 + (y1 - y0) ^ 2) = d := by
    rw [hd]; congr 1; ring
  have habs : |r1 - r0| ≤ r0 + r1 := by
    rw [abs_le]; constructor <;> linarith
  refine ⟨?_, ?_, ?_, ?_⟩
  · intro h1
    simp only [SecondaryVertexFinder.circle_circle_intersection]
    rw [← hd, if_pos h1]
  · intro h1 h2
    simp only [SecondaryVertexFinder.circle_circle_intersection]
    rw [← hd]
    by_cases hlt : d < |r1 - r0|
    · rw [if_pos hlt]
    · rw [if_neg hlt, if_pos h1, if_neg (not_lt.2 h2)]
  · intro h1 h2
    have hnlt : ¬ (d < |r1 - r0|) := not_lt.2 (by linarith)
    have hcc : SecondaryVertexFinder.circle_circle_intersection r0 x0 y0 r1 x1 y1 =
        (true, [((x0 + (x1 - x0) / d * r0) + (x1 + (x0 - x1) / d * r1)) / 2,
                ((y0 + (y1 - y0) / d * r0) + (y1 + (y0 - y1) / d * r1)) / 2]) := by
      simp only [SecondaryVertexFinder.circle_circle_intersection]
      rw [← hd, hu0, if_neg hnlt, if_pos h1, if_pos h2]
    exact ⟨hcc, by rw [hcc]; rfl⟩
  · intro h1 h2
    simp only [SecondaryVertexFinder.circle_circle_intersection]
    rw [← hd, if_neg h1, if_neg h2]
    simp

/-- Witness for C1: unit circles at centre distance 1.9 (two points) and at
centre distance 2.1 (near-tangency, one midpoint point). -/
theorem c1_witness :
    ((0:ℝ) ≤ 1 ∧ (1.9:ℝ) = Real.sqrt (((0:ℝ) - 1.9) ^ 2 + ((0:ℝ) - 0) ^ 2) ∧
      ¬ ((1.9:ℝ) < |1 - 1|) ∧ ¬ ((1.9:ℝ) > 1 + 1) ∧
      (SecondaryVertexFinder.circle_circle_intersection 1 0 0 1 1.9 0).1 = true ∧
      (SecondaryVertexFinder.circle_circle_intersection 1 0 0 1 1.9 0).2.length = 4) ∧
    ((2.1:ℝ) = Real.sqrt (((0:ℝ) - 2.1) ^ 2 + ((0:ℝ) - 0) ^ 2) ∧
      (2.1:ℝ) > 1 + 1 ∧ |(2.1:ℝ) - (1 + 1)| < 0.2 ∧
      SecondaryVertexFinder.circle_circle_intersection 1 0 0 1 2.1 0 =
        (true, [((0 + (2.1 - 0) / 2.1 * 1) + (2.1 + (0 - 2.1) / 2.1 * 1)) / 2,
                ((0 + (0 - 0) / 2.1 * 1) + (0 + (0 - 0) / 2.1 * 1)) / 2]) ∧
      (SecondaryVertexFinder.circle_circle_intersection 1 0 0 1 2.1 0).2.length = 2) := by
  have hd1 : (1.9:ℝ) = Real.sqrt (((0:ℝ) - 1.9) ^ 2 + ((0:ℝ) - 0) ^ 2) :=
    (sqrt_of_sq (by norm_num) (by norm_num)).symm
  have hd2 : (2.1:ℝ) = Real.sqrt (((0:ℝ) - 2.1) ^ 2 + ((0:ℝ) - 0) ^ 2) :=
    (sqrt_of_sq (by norm_num) (by norm_num)).symm
  have h19lt : ¬ ((1.9:ℝ) < |1 - 1|) := by norm_num
  have h19gt : ¬ ((1.9:ℝ) > 1 + 1) := by norm_num
  have h21gt : (2.1:ℝ) > 1 + 1 := by norm_num
  have h21tol : |(2.1:ℝ) - (1 + 1)| < 0.2 := by
    rw [abs_lt]; constructor <;> norm_num
  refine ⟨⟨by norm_num, hd1, h19lt, h19gt,
    ((c1_circle_circle 1 0 0 1 1.9 0 1.9 (by norm_num) (by norm_num) hd1).2.2.2 h19lt h19gt).1,
    ((c1_circle_circle 1 0 0 1 1.9 0 1.9 (by norm_num) (by norm_num) hd1).2.2.2 h19lt h19gt).2⟩,
    ⟨hd2, h21gt, h21tol,
    ((c1_circle_circle 1 0 0 1 2.1 0 2.1 (by norm_num) (by norm_num) hd2).2.2.1 h21gt h21tol).1,
    ((c1_circle_circle 1 0 0 1 2.1 0 2.1 (by norm_num) (by norm_num) hd2).2.2.1 h21gt h21tol).2⟩⟩

/-- Claim C10: whenever the circle-circle intersection of the two fitted
circles succeeds with a single point (two pushed coordinates),
`findTwoTrackIntersection` returns true, writes that point into its first
intersection output and returns the second output unchanged — exactly the
value the caller supplied. -/
theorem c10_single_point_keeps_intersect2 (fitpars : SecondaryVertexFinder.Track → List ℝ)
    (t1 t2 : SecondaryVertexFinder.Track) (i1 i2 : ℝ × ℝ)
    (h1 : ¬ ((fitpars t1).length = 0)) (h2 : ¬ ((fitpars t2).length = 0))
    (hcc : (SecondaryVertexFinder.circle_circle_intersection
      ((fitpars t1).getD 0 0) ((fitpars t1).getD 1 0) ((fitpars t1).getD 2 0)
      ((fitpars t2).getD 0 0) ((fitpars t2).getD 1 0) ((fitpars t2).getD 2 0)).1 = true)
    (hlen : (SecondaryVertexFinder.circle_circle_intersection
      ((fitpars t1).getD 0 0) ((fitpars t1).getD 1 0) ((fitpars t1).getD 2 0)
      ((fitpars t2).getD 0 0) ((fitpars t2).getD 1 0) ((fitpars t2).getD 2 0)).2.length = 2) :
    SecondaryVertexFinder.findTwoTrackIntersection fitpars t1 t2 i1 i2 =
      (true,
       ((SecondaryVertexFinder.circle_circle_intersection
          ((fitpars t1).getD 0 0) ((fitpars t1).getD 1 0) ((fitpars t1).getD 2 0)
          ((fitpars t2).getD 0 0) ((fitpars t2).getD 1 0) ((fitpars t2).getD 2 0)).2.getD 0 0,
        (SecondaryVertexFinder.circle_circle_intersection
          ((fitpars t1).getD 0 0) ((fitpars t1).getD 1 0) ((fitpars t1).getD 2 0)
          ((fitpars t2).getD 0 0) ((fitpars t2).getD 1 0) ((fitpars t2).getD 2 0)).2.getD 1 0),
       i2) := by
  unfold SecondaryVertexFinder.findTwoTrackIntersection
  rw [if_neg h1, if_neg h2]
  rcases heq : SecondaryVertexFinder.circle_circle_intersection
      ((fitpars t1).getD 0 0) ((fitpars t1).getD 1 0) ((fitpars t1).getD 2 0)
      ((fitpars t2).getD 0 0) ((fitpars t2).getD 1 0) ((fitpars t2).getD 2 0) with ⟨b, pts⟩
  rw [heq] at hcc hlen
  cases b with
  | false => simp at hcc
  | true =>
    simp only []
    rw [if_neg (by simp [hlen])]

/-- Witness helper for C10: the barely-touching circles of the fixture
produce the single midpoint (1.05, 0). -/
theorem c10_cc_eval :
    SecondaryVertexFinder.circle_circle_intersection 1 0 0 1 2.1 0 = (true, [1.05, 0]) := by
  have hd : Real.sqrt (((0:ℝ) - 2.1) ^ 2 + ((0:ℝ) - 0) ^ 2) = 2.1 :=
    sqrt_of_sq (by norm_num) (by norm_num)
  have hu0 : Real.sqrt (((2.1:ℝ) - 0) ^ 2 + ((0:ℝ) - 0) ^ 2) = 2.1 :=
    sqrt_of_sq (by norm_num) (by norm_num)
  simp only [SecondaryVertexFinder.circle_circle_intersection]
  rw [hd, hu0, if_neg (by norm_num), if_pos (by norm_num),
    if_pos (by rw [abs_lt]; constructor <;> norm_num)]
  norm_num

/-- Witness for C10 on the fixture tracks: the caller-supplied second output
(7,8) survives unchanged. -/
theorem c10_witness :
    (¬ ((SecondaryVertexFinder.wtFitpars SecondaryVertexFinder.wtTrackA).length = 0)) ∧
    (¬ ((SecondaryVertexFinder.wtFitpars SecondaryVertexFinder.wtTrackB).length = 0)) ∧
    (SecondaryVertexFinder.circle_circle_intersection
      ((SecondaryVertexFinder.wtFitpars SecondaryVertexFinder.wtTrackA).getD 0 0)
      ((SecondaryVertexFinder.wtFitpars SecondaryVertexFinder.wtTrackA).getD 1 0)
      ((SecondaryVertexFinder.wtFitpars SecondaryVertexFinder.wtTrackA).getD 2 0)
      ((SecondaryVertexFinder.wtFitpars SecondaryVertexFinder.wtTrackB).getD 0 0)
      ((SecondaryVertexFinder.wtFitpars SecondaryVertexFinder.wtTrackB).getD 1 0)
      ((SecondaryVertexFinder.wtFitpars SecondaryVertexFinder.wtTrackB).getD 2 0)).1 = true ∧
    (SecondaryVertexFinder.circle_circle_intersection
      ((SecondaryVertexFinder.wtFitpars SecondaryVertexFinder.wtTrackA).getD 0 0)
      ((SecondaryVertexFinder.wtFitpars SecondaryVertexFinder.wtTrackA).getD 1 0)
      ((SecondaryVertexFinder.wtFitpars SecondaryVertexFinder.wtTrackA).getD 2 0)
      ((SecondaryVertexFinder.wtFitpars SecondaryVertexFinder.wtTrackB).getD 0 0)
      ((SecondaryVertexFinder.wtFitpars SecondaryVertexFinder.wtTrackB).getD 1 0)
      ((SecondaryVertexFinder.wtFitpars SecondaryVertexFinder.wtTrackB).getD 2 0)).2.length = 2 ∧
    SecondaryVertexFinder.findTwoTrackIntersection SecondaryVertexFinder.wtFitpars
      SecondaryVertexFinder.wtTrackA SecondaryVertexFinder.wtTrackB (0, 0) (7, 8) =
      (true, (1.05, 0), (7, 8)) := by
  have hfitA : SecondaryVertexFinder.wtFitpars SecondaryVertexFinder.wtTrackA =
      [1, 0, 0, 0, 0] := by
    simp [SecondaryVertexFinder.wtFitpars, SecondaryVertexFinder.wtTrackA]
  have hfitB : SecondaryVertexFinder.wtFitpars SecondaryVertexFinder.wtTrackB =
      [1, 2.1, 0, 0, 0] := by
    simp [SecondaryVertexFinder.wtFitpars, SecondaryVertexFinder.wtTrackB]
  have h1 : ¬ ((SecondaryVertexFinder.wtFitpars SecondaryVertexFinder.wtTrackA).length = 0) := by
    rw [hfitA]; norm_num
  have h2 : ¬ ((SecondaryVertexFinder.wtFitpars SecondaryVertexFinder.wtTrackB).length = 0) := by
    rw [hfitB]; norm_num
  have hccargs : SecondaryVertexFinder.circle_circle_intersection
      ((SecondaryVertexFinder.wtFitpars SecondaryVertexFinder.wtTrackA).getD 0 0)
      ((SecondaryVertexFinder.wtFitpars SecondaryVertexFinder.wtTrackA).getD 1 0)
      ((SecondaryVertexFinder.wtFitpars SecondaryVertexFinder.wtTrackA).getD 2 0)
      ((SecondaryVertexFinder.wtFitpars SecondaryVertexFinder.wtTrackB).getD 0 0)
      ((SecondaryVertexFinder.wtFitpars SecondaryVertexFinder.wtTrackB).getD 1 0)
      ((SecondaryVertexFinder.wtFitpars SecondaryVertexFinder.wtTrackB).getD 2 0) =
      (true, [1.05, 0]) := by
    rw [hfitA, hfitB]
    simp only [List.getD, List.getElem?_cons_zero, List.getElem?_cons_succ, Option.getD_some]
    exact c10_cc_eval
  have hcc : (SecondaryVertexFinder.circle_circle_intersection
      ((SecondaryVertexFinder.wtFitpars SecondaryVertexFinder.wtTrackA).getD 0 0)
      ((SecondaryVertexFinder.wtFitpars SecondaryVertexFinder.wtTrackA).getD 1 0)
      ((SecondaryVertexFinder.wtFitpars SecondaryVertexFinder.wtTrackA).getD 2 0)
      ((SecondaryVertexFinder.wtFitpars SecondaryVertexFinder.wtTrackB).getD 0 0)
      ((SecondaryVertexFinder.wtFitpars SecondaryVertexFinder.wtTrackB).getD 1 0)
      ((SecondaryVertexFinder.wtFitpars SecondaryVertexFinder.wtTrackB).getD 2 0)).1 = true := by
    rw [hccargs]
  have hlen : (SecondaryVertexFinder.circle_circle_intersection
      ((SecondaryVertexFinder.wtFitpars SecondaryVertexFinder.wtTrackA).getD 0 0)
      ((SecondaryVertexFinder.wtFitpars SecondaryVertexFinder.wtTrackA).getD 1 0)
      ((SecondaryVertexFinder.wtFitpars SecondaryVertexFinder.wtTrackA).getD 2 0)
      ((SecondaryVertexFinder.wtFitpars SecondaryVertexFinder.wtTrackB).getD 0 0)
      ((SecondaryVertexFinder.wtFitpars SecondaryVertexFinder.wtTrackB).getD 1 0)
      ((SecondaryVertexFinder.wtFitpars SecondaryVertexFinder.wtTrackB).getD 2 0)).2.length = 2 := by
    rw [hccargs]; rfl
  refine ⟨h1, h2, hcc, hlen, ?_⟩
  have happ := c10_single_point_keeps_intersect2 SecondaryVertexFinder.wtFitpars
    SecondaryVertexFinder.wtTrackA SecondaryVertexFinder.wtTrackB (0, 0) (7, 8) h1 h2 hcc hlen
  rw [happ, hccargs]
  norm_num

/-- Claim C3: `get_cell_index` returns the sentinel -1 when the radius is
below 20 or at/above 78, or z is below -105.5 or at/above 105.5; a position
exactly at the lower r or z bound falls in bin 0 of that axis; and the
azimuth is wrapped into [0, 2 pi) before binning, so with r and z in range no
azimuth produces the sentinel.  (The flattening performed by the external
matrix container is modelled from the spec.) -/
theorem c3_cell_index_ranges (phibins rbins zbins : ℕ) (v : Vec3) :
    (TpcDirectLaserReconstruction.get_r v.x v.y < TpcDirectLaserReconstruction.m_rmin ∨
      TpcDirectLaserReconstruction.m_rmax ≤ TpcDirectLaserReconstruction.get_r v.x v.y ∨
      v.z < TpcDirectLaserReconstruction.m_zmin ∨
      TpcDirectLaserReconstruction.m_zmax ≤ v.z →
      TpcDirectLaserReconstruction.get_cell_index phibins rbins zbins v = -1) ∧
    (TpcDirectLaserReconstruction.get_r v.x v.y = TpcDirectLaserReconstruction.m_rmin →
      TpcDirectLaserReconstruction.ir_of rbins v.x v.y = 0) ∧
    (v.z = TpcDirectLaserReconstruction.m_zmin →
      TpcDirectLaserReconstruction.iz_of zbins v.z = 0) ∧
    TpcDirectLaserReconstruction.wrap_phi (atan2 v.y v.x) ∈
      Set.Ico TpcDirectLaserReconstruction.m_phimin TpcDirectLaserReconstruction.m_phimax ∧
    (TpcDirectLaserReconstruction.m_rmin ≤ TpcDirectLaserReconstruction.get_r v.x v.y →
      TpcDirectLaserReconstruction.get_r v.x v.y < TpcDirectLaserReconstruction.m_rmax →
      TpcDirectLaserReconstruction.m_zmin ≤ v.z →
      v.z < TpcDirectLaserReconstruction.m_zmax →
      TpcDirectLaserReconstruction.get_cell_index phibins rbins zbins v ≠ -1) := by
  have hpi := Real.pi_pos
  have harg1 : -Real.pi < Complex.arg ⟨v.x, v.y⟩ := Complex.neg_pi_lt_arg _
  have harg2 : Complex.arg ⟨v.x, v.y⟩ ≤ Real.pi := Complex.arg_le_pi _
  have hwrap : TpcDirectLaserReconstruction.wrap_phi (atan2 v.y v.x) ∈
      Set.Ico TpcDirectLaserReconstruction.m_phimin TpcDirectLaserReconstruction.m_phimax := by
    unfold TpcDirectLaserReconstruction.wrap_phi atan2
      TpcDirectLaserReconstruction.m_phimin TpcDirectLaserReconstruction.m_phimax
    by_cases hneg : Complex.arg ⟨v.x, v.y⟩ < 0
    · rw [if_pos hneg, Set.mem_Ico]
      constructor <;> linarith
    · rw [if_neg hneg, Set.mem_Ico]
      constructor <;> linarith [not_lt.1 hneg]
  refine ⟨?_, ?_, ?_, hwrap, ?_⟩
  · intro h
    simp only [TpcDirectLaserReconstruction.get_cell_index]
    by_cases hr : TpcDirectLaserReconstruction.get_r v.x v.y <
        TpcDirectLaserReconstruction.m_rmin ∨
        TpcDirectLaserReconstruction.get_r v.x v.y ≥ TpcDirectLaserReconstruction.m_rmax
    · rw [if_pos hr]
    · rw [if_neg hr]
      have hz : v.z < TpcDirectLaserReconstruction.m_zmin ∨
          v.z ≥ TpcDirectLaserReconstruction.m_zmax := by
        rcases h with h | h | h | h
        · exact absurd (Or.inl h) hr
        · exact absurd (Or.inr h) hr
        · exact Or.inl h
        · exact Or.inr h
      rw [if_pos hz]
  · intro h
    unfold TpcDirectLaserReconstruction.ir_of
    rw [h]
    norm_num [TpcDirectLaserReconstruction.m_rmin, TpcDirectLaserReconstruction.m_rmax]
  · intro h
    unfold TpcDirectLaserReconstruction.iz_of
    rw [h]
    norm_num [TpcDirectLaserReconstruction.m_zmin, TpcDirectLaserReconstruction.m_zmax]
  · intro h1 h2 h3 h4
    simp only [TpcDirectLaserReconstruction.get_cell_index]
    rw [if_neg (by push_neg; exact ⟨h1, h2⟩),
        if_neg (by push_neg; exact ⟨h3, h4⟩)]
    have hw0 : 0 ≤ TpcDirectLaserReconstruction.wrap_phi (atan2 v.y v.x) := by
      have := hwrap.1
      simpa [TpcDirectLaserReconstruction.m_phimin] using this
    have hiphi : 0 ≤ TpcDirectLaserReconstruction.iphi_of phibins v.x v.y := by
      unfold TpcDirectLaserReconstruction.iphi_of
      refine Int.le_floor.2 ?_
      push_cast
      apply div_nonneg
      · apply mul_nonneg (Nat.cast_nonneg _)
        simp only [TpcDirectLaserReconstruction.m_phimin]
        linarith
      · simp only [TpcDirectLaserReconstruction.m_phimin,
          TpcDirectLaserReconstruction.m_phimax]
        linarith
    have hir : 0 ≤ TpcDirectLaserReconstruction.ir_of rbins v.x v.y := by
      unfold TpcDirectLaserReconstruction.ir_of
      refine Int.le_floor.2 ?_
      push_cast
      apply div_nonneg
      · apply mul_nonneg (Nat.cast_nonneg _)
        simp only [TpcDirectLaserReconstruction.m_rmin] at h1 ⊢
        linarith
      · norm_num [TpcDirectLaserReconstruction.m_rmin, TpcDirectLaserReconstruction.m_rmax]
    have hiz : 0 ≤ TpcDirectLaserReconstruction.iz_of zbins v.z := by
      unfold TpcDirectLaserReconstruction.iz_of
      refine Int.le_floor.2 ?_
      push_cast
      apply div_nonneg
      · apply mul_nonneg (Nat.cast_nonneg _)
        simp only [TpcDirectLaserReconstruction.m_zmin] at h3 ⊢
        linarith
      · norm_num [TpcDirectLaserReconstruction.m_zmin, TpcDirectLaserReconstruction.m_zmax]
    unfold TpcDirectLaserReconstruction.containerCellIndex
    intro hEq
    have hsum : (0:ℤ) ≤ TpcDirectLaserReconstruction.iphi_of phibins v.x v.y *
        (rbins * zbins) + TpcDirectLaserReconstruction.ir_of rbins v.x v.y * zbins +
        TpcDirectLaserReconstruction.iz_of zbins v.z := by
      have c1 : (0:ℤ) ≤ (rbins : ℤ) * zbins := by positivity
      have c2 : (0:ℤ) ≤ (zbins : ℤ) := by positivity
      have := mul_nonneg hiphi c1
      have := mul_nonneg hir c2
      push_cast at *
      linarith
    rw [hEq] at hsum
    norm_num at hsum

/-- Witness for C3 at the positions (10,0,200) (out of range, sentinel) and
(20,0,-105.5) (exactly at the lower r and z bounds). -/
theorem c3_witness :
    (TpcDirectLaserReconstruction.get_r (10:ℝ) 0 < TpcDirectLaserReconstruction.m_rmin ∧
      TpcDirectLaserReconstruction.get_cell_index 36 16 80 ⟨10, 0, 200⟩ = -1) ∧
    (TpcDirectLaserReconstruction.get_r (20:ℝ) 0 = TpcDirectLaserReconstruction.m_rmin ∧
      TpcDirectLaserReconstruction.ir_of 16 20 0 = 0) ∧
    ((-105.5:ℝ) = TpcDirectLaserReconstruction.m_zmin ∧
      TpcDirectLaserReconstruction.iz_of 80 (-105.5) = 0) ∧
    TpcDirectLaserReconstruction.wrap_phi (atan2 (0:ℝ) 20) ∈
      Set.Ico TpcDirectLaserReconstruction.m_phimin TpcDirectLaserReconstruction.m_phimax ∧
    TpcDirectLaserReconstruction.get_cell_index 36 16 80 ⟨20, 0, -105.5⟩ ≠ -1 := by
  have hr10 : TpcDirectLaserReconstruction.get_r (10:ℝ) 0 = 10 :=
    sqrt_of_sq (by norm_num) (by norm_num)
  have hr20 : TpcDirectLaserReconstruction.get_r (20:ℝ) 0 = 20 :=
    sqrt_of_sq (by norm_num) (by norm_num)
  have h10 : TpcDirectLaserReconstruction.get_r (10:ℝ) 0 <
      TpcDirectLaserReconstruction.m_rmin := by
    rw [hr10]; norm_num [TpcDirectLaserReconstruction.m_rmin]
  have h20 : TpcDirectLaserReconstruction.get_r (20:ℝ) 0 =
      TpcDirectLaserReconstruction.m_rmin := by
    rw [hr20]; norm_num [TpcDirectLaserReconstruction.m_rmin]
  have hz : (-105.5:ℝ) = TpcDirectLaserReconstruction.m_zmin := by
    norm_num [TpcDirectLaserReconstruction.m_zmin]
  exact ⟨⟨h10, (c3_cell_index_ranges 36 16 80 ⟨10, 0, 200⟩).1 (Or.inl h10)⟩,
    ⟨h20, (c3_cell_index_ranges 36 16 80 ⟨20, 0, 0⟩).2.1 h20⟩,
    ⟨hz, (c3_cell_index_ranges 36 16 80 ⟨20, 0, -105.5⟩).2.2.1 hz⟩,
    (c3_cell_index_ranges 36 16 80 ⟨20, 0, -105.5⟩).2.2.2.1,
    (c3_cell_index_ranges 36 16 80 ⟨20, 0, -105.5⟩).2.2.2.2
      (le_of_eq h20.symm)
      (by rw [hr20]; norm_num [TpcDirectLaserReconstruction.m_rmax])
      (le_of_eq hz)
      (by norm_num [TpcDirectLaserReconstruction.m_zmin, TpcDirectLaserReconstruction.m_zmax])⟩

/-- Every hit inserted into `cluspos_map` was first iterated (and counted) in
the hit loop: the matched list is no longer than the total hit count. -/
theorem matched_hits_length_le (P : TpcDirectLaserReconstruction.LaserParams)
    (G : ℕ → TpcDirectLaserReconstruction.LayerGeom) (origin direction : Vec3)
    (hitsets : List TpcDirectLaserReconstruction.Hitset) :
    (TpcDirectLaserReconstruction.matched_hits P G origin direction hitsets).length ≤
      (hitsets.map (fun hs => hs.hits.length)).sum := by
  induction hitsets with
  | nil => simp [TpcDirectLaserReconstruction.matched_hits]
  | cons hs rest ih =>
    simp only [TpcDirectLaserReconstruction.matched_hits, List.flatMap_cons,
      List.length_append, List.map_cons, List.sum_cons] at ih ⊢
    have hfil : ((hs.hits.filter fun h =>
        if TpcDirectLaserReconstruction.hit_dca origin direction
          (TpcDirectLaserReconstruction.hit_global P G hs h) > P.max_dca then false
        else true).map fun h =>
          ({ layer := hs.layer, adc := h.adc - P.pedestal,
             pos := TpcDirectLaserReconstruction.hit_global P G hs h } :
            TpcDirectLaserReconstruction.MatchedHit)).length ≤ hs.hits.length := by
      rw [List.length_map]
      exact List.length_filter_le _ _
    omega

/-- One `process_track` call preserves the counter invariant: it adds at most
as many matched hits as total hits, and at most one accepted cluster per
distinct layer holding a matched hit. -/
theorem process_track_invariant (P : TpcDirectLaserReconstruction.LaserParams)
    (G : ℕ → TpcDirectLaserReconstruction.LayerGeom)
    (tr : TpcDirectLaserReconstruction.LaserTrack)
    (hitsets : List TpcDirectLaserReconstruction.Hitset)
    (c : TpcDirectLaserReconstruction.Counters)
    (h1 : c.accepted ≤ c.matched) (h2 : c.matched ≤ c.total) :
    (TpcDirectLaserReconstruction.process_track P G tr hitsets c).accepted ≤
      (TpcDirectLaserReconstruction.process_track P G tr hitsets c).matched ∧
    (TpcDirectLaserReconstruction.process_track P G tr hitsets c).matched ≤
      (TpcDirectLaserReconstruction.process_track P G tr hitsets c).total := by
  simp only [TpcDirectLaserReconstruction.process_track]
  constructor
  · have hcard : (((TpcDirectLaserReconstruction.matched_hits P G ⟨tr.x, tr.y, tr.z⟩
        ⟨tr.px, tr.py, tr.pz⟩ hitsets).map (fun m => m.layer)).toFinset.filter
          (fun layer => TpcDirectLaserReconstruction.accept_layer P G ⟨tr.x, tr.y, tr.z⟩
            ⟨tr.px, tr.py, tr.pz⟩ (TpcDirectLaserReconstruction.matched_hits P G
              ⟨tr.x, tr.y, tr.z⟩ ⟨tr.px, tr.py, tr.pz⟩ hitsets) layer = true)).card ≤
        (TpcDirectLaserReconstruction.matched_hits P G ⟨tr.x, tr.y, tr.z⟩
          ⟨tr.px, tr.py, tr.pz⟩ hitsets).length := by
      calc _ ≤ ((TpcDirectLaserReconstruction.matched_hits P G ⟨tr.x, tr.y, tr.z⟩
            ⟨tr.px, tr.py, tr.pz⟩ hitsets).map (fun m => m.layer)).toFinset.card :=
          Finset.card_filter_le _ _
        _ ≤ ((TpcDirectLaserReconstruction.matched_hits P G ⟨tr.x, tr.y, tr.z⟩
            ⟨tr.px, tr.py, tr.pz⟩ hitsets).map (fun m => m.layer)).length :=
          List.toFinset_card_le _
        _ = _ := List.length_map _ _
    omega
  · have hlen := matched_hits_length_le P G ⟨tr.x, tr.y, tr.z⟩ ⟨tr.px, tr.py, tr.pz⟩ hitsets
    omega

/-- Claim C4: after processing any event — any list of tracks against any hit
collection — starting from counters satisfying the invariant, the invariant
`m_accepted_clusters ≤ m_matched_hits ≤ m_total_hits` still holds (so it
holds after every event when starting from the zeroed counters of `Init`). -/
theorem c4_counters_invariant (P : TpcDirectLaserReconstruction.LaserParams)
    (G : ℕ → TpcDirectLaserReconstruction.LayerGeom)
    (tracks : List TpcDirectLaserReconstruction.LaserTrack)
    (hitsets : List TpcDirectLaserReconstruction.Hitset)
    (c : TpcDirectLaserReconstruction.Counters)
    (h1 : c.accepted ≤ c.matched) (h2 : c.matched ≤ c.total) :
    (TpcDirectLaserReconstruction.process_tracks P G tracks hitsets c).accepted ≤
      (TpcDirectLaserReconstruction.process_tracks P G tracks hitsets c).matched ∧
    (TpcDirectLaserReconstruction.process_tracks P G tracks hitsets c).matched ≤
      (TpcDirectLaserReconstruction.process_tracks P G tracks hitsets c).total := by
  induction tracks generalizing c with
  | nil => exact ⟨h1, h2⟩
  | cons tr rest ih =>
    simp only [TpcDirectLaserReconstruction.process_tracks, List.foldl_cons] at ih ⊢
    have step := process_track_invariant P G tr hitsets c h1 h2
    exact ih _ step.1 step.2

/-- Witness for C4: the empty event starting from zeroed counters. -/
theorem c4_witness :
    ((0:ℕ) ≤ 0) ∧
    ((TpcDirectLaserReconstruction.process_tracks TpcDirectLaserReconstruction.wLaserParams
        TpcDirectLaserReconstruction.wLayerGeom [] [] ⟨0, 0, 0⟩).accepted ≤
      (TpcDirectLaserReconstruction.process_tracks TpcDirectLaserReconstruction.wLaserParams
        TpcDirectLaserReconstruction.wLayerGeom [] [] ⟨0, 0, 0⟩).matched ∧
     (TpcDirectLaserReconstruction.process_tracks TpcDirectLaserReconstruction.wLaserParams
        TpcDirectLaserReconstruction.wLayerGeom [] [] ⟨0, 0, 0⟩).matched ≤
      (TpcDirectLaserReconstruction.process_tracks TpcDirectLaserReconstruction.wLaserParams
        TpcDirectLaserReconstruction.wLayerGeom [] [] ⟨0, 0, 0⟩).total) :=
  ⟨le_refl 0, c4_counters_invariant TpcDirectLaserReconstruction.wLaserParams
    TpcDirectLaserReconstruction.wLayerGeom [] [] ⟨0, 0, 0⟩ (le_refl 0) (le_refl 0)⟩

/-- An outer-loop track that survives the `continue` guards meets the quality,
cluster-count and impact-parameter cuts. -/
theorem outerPass_conditions (P : SecondaryVertexFinder.Params)
    (E : SecondaryVertexFinder.Ext) (tr1 : SecondaryVertexFinder.Track)
    (h : SecondaryVertexFinder.outerPass P E tr1 = true) :
    tr1.quality ≤ P.qual_cut ∧ 20 ≤ tr1.ntpc ∧
    P.track_dcaxy_cut ≤ |(SecondaryVertexFinder.get_dca
      (E.vertexOf tr1.vertex_id) tr1).1| ∧
    P.track_dcaz_cut ≤ |(SecondaryVertexFinder.get_dca
      (E.vertexOf tr1.vertex_id) tr1).2| := by
  simp only [SecondaryVertexFinder.outerPass] at h
  split_ifs at h with h1 h2 h3 h4 h5 h6 h7
  all_goals try simp at h
  exact ⟨not_lt.1 h3, not_lt.1 h4, not_lt.1 h6, not_lt.1 h7⟩

/-- A candidate emitted for one intersection point records the pair's tracks
and impact parameters, satisfies the pair-DCA cut and exceeds the
minimum-path cut. -/
theorem processIntersection_conditions (P : SecondaryVertexFinder.Params)
    (E : SecondaryVertexFinder.Ext) (tr1 tr2 : SecondaryVertexFinder.Track)
    (d1xy d1z d2xy d2z : ℝ) (hs1 hs2 : ℤ) (pt : ℝ × ℝ)
    (c : SecondaryVertexFinder.Candidate)
    (hc : c ∈ SecondaryVertexFinder.processIntersection P E tr1 tr2
      d1xy d1z d2xy d2z hs1 hs2 pt) :
    c.tr1 = tr1 ∧ c.tr2 = tr2 ∧ c.dca3dxy1 = d1xy ∧ c.dca3dz1 = d1z ∧
    c.dca3dxy2 = d2xy ∧ c.dca3dz2 = d2z ∧
    |c.pair_dca| ≤ P.two_track_dcacut ∧ P.min_path_cut < c.path := by
  simp only [SecondaryVertexFinder.processIntersection] at hc
  split at hc
  · exact absurd hc (List.not_mem_nil c)
  · split at hc
    · exact absurd hc (List.not_mem_nil c)
    · split at hc
      · exact absurd hc (List.not_mem_nil c)
      · split at hc
        · exact absurd hc (List.not_mem_nil c)
        · split at hc
          · exact absurd hc (List.not_mem_nil c)
          · split at hc
            · exact absurd hc (List.not_mem_nil c)
            · next hdca =>
              split at hc
              · next hpath =>
                rw [List.mem_singleton] at hc
                subst hc
                exact ⟨rfl, rfl, rfl, rfl, rfl, rfl, not_lt.1 hdca, hpath⟩
              · exact absurd hc (List.not_mem_nil c)

/-- A candidate emitted from the inner (`tr2`) loop body meets every guard on
the second track and comes from one of the two intersection slots. -/
theorem processPair_conditions (P : SecondaryVertexFinder.Params)
    (E : SecondaryVertexFinder.Ext) (tr1 : SecondaryVertexFinder.Track)
    (d1xy d1z : ℝ) (hs1 : ℤ) (tr2 : SecondaryVertexFinder.Track)
    (c : SecondaryVertexFinder.Candidate)
    (hc : c ∈ SecondaryVertexFinder.processPair P E tr1 d1xy d1z hs1 tr2) :
    tr2.charge ≠ tr1.charge ∧ tr2.quality ≤ P.qual_cut ∧ 20 ≤ tr2.ntpc ∧
    P.track_dcaxy_cut ≤ |(SecondaryVertexFinder.get_dca
      (E.vertexOf tr2.vertex_id) tr2).1| ∧
    P.track_dcaz_cut ≤ |(SecondaryVertexFinder.get_dca
      (E.vertexOf tr2.vertex_id) tr2).2| ∧
    ∃ hs2 pt, c ∈ SecondaryVertexFinder.processIntersection P E tr1 tr2 d1xy d1z
      (SecondaryVertexFinder.get_dca (E.vertexOf tr2.vertex_id) tr2).1
      (SecondaryVertexFinder.get_dca (E.vertexOf tr2.vertex_id) tr2).2
      hs1 hs2 pt := by
  simp only [SecondaryVertexFinder.processPair] at hc
  split_ifs at hc with hmv hch hq hn hd0 hxy hz hsil
  all_goals try exact absurd hc (List.not_mem_nil c)
  all_goals {
    rcases hfind : SecondaryVertexFinder.findTwoTrackIntersection E.fitpars tr1 tr2 (0, 0) (0, 0)
      with ⟨b, i1, i2⟩
    rw [hfind] at hc
    cases b with
    | false => simp at hc
    | true =>
      simp only [List.mem_append] at hc
      refine ⟨hch, not_lt.1 hq, not_lt.1 hn, not_lt.1 hxy, not_lt.1 hz, ?_⟩
      rcases hc with hc | hc
      · exact ⟨_, i1, hc⟩
      · exact ⟨_, i2, hc⟩
  }

/-- Claim C5: a TrackPairCandidate (the ntuple entry and mass-histogram fill)
is emitted only when both tracks pass the quality cut, both have at least 20
TPC seed clusters, the charges differ (opposite sign for unit charges), both
tracks' transverse and longitudinal impact-parameter magnitudes reach the
configured thresholds, the pair's closest-approach distance magnitude does
not exceed the two-track DCA cut, and the decay length exceeds the
minimum-path cut. -/
theorem c5_emission_conditions (P : SecondaryVertexFinder.Params)
    (E : SecondaryVertexFinder.Ext) (tracks : List SecondaryVertexFinder.Track)
    (c : SecondaryVertexFinder.Candidate)
    (hc : c ∈ SecondaryVertexFinder.process_event P E tracks) :
    c.tr1.quality ≤ P.qual_cut ∧ c.tr2.quality ≤ P.qual_cut ∧
    20 ≤ c.tr1.ntpc ∧ 20 ≤ c.tr2.ntpc ∧
    c.tr2.charge ≠ c.tr1.charge ∧
    P.track_dcaxy_cut ≤ |c.dca3dxy1| ∧ P.track_dcaz_cut ≤ |c.dca3dz1| ∧
    P.track_dcaxy_cut ≤ |c.dca3dxy2| ∧ P.track_dcaz_cut ≤ |c.dca3dz2| ∧
    |c.pair_dca| ≤ P.two_track_dcacut ∧
    P.min_path_cut < c.path := by
  induction tracks with
  | nil => exact absurd hc (List.not_mem_nil c)
  | cons tr1 rest ih =>
    simp only [SecondaryVertexFinder.process_event, List.mem_append] at hc
    rcases hc with hc | hc
    · split at hc
      · next houter =>
        rw [List.mem_flatMap] at hc
        obtain ⟨tr2, _, hmem⟩ := hc
        obtain ⟨hch, hq2, hn2, hxy2, hz2, hs2, pt, hpi⟩ :=
          processPair_conditions P E tr1 _ _ _ tr2 c hmem
        obtain ⟨he1, he2, hd1, hd2, hd3, hd4, hdca, hpath⟩ :=
          processIntersection_conditions P E tr1 tr2 _ _ _ _ _ _ pt c hpi
        obtain ⟨hq1, hn1, hxy1, hz1⟩ := outerPass_conditions P E tr1 houter
        refine ⟨?_, ?_, ?_, ?_, ?_, ?_, ?_, ?_, ?_, hdca, hpath⟩
        · rw [he1]; exact hq1
        · rw [he2]; exact hq2
        · rw [he1]; exact hn1
        · rw [he2]; exact hn2
        · rw [he1, he2]; exact hch
        · rw [hd1]; exact hxy1
        · rw [hd2]; exact hz1
        · rw [hd3]; exact hxy2
        · rw [hd4]; exact hz2
      · exact absurd hc (List.not_mem_nil c)
    · exact ih hc

theorem Vec3.add_def (u v : Vec3) : u + v = ⟨u.x + v.x, u.y + v.y, u.z + v.z⟩ := rfl

theorem Vec3.sub_def (u v : Vec3) : u - v = ⟨u.x - v.x, u.y - v.y, u.z - v.z⟩ := rfl

theorem Vec3.smul_def (c : ℝ) (v : Vec3) : c • v = ⟨c * v.x, c * v.y, c * v.z⟩ := rfl

/-- Evaluation of `get_dca` on the first fixture track. -/
theorem c5_dca1 : SecondaryVertexFinder.get_dca
    (SecondaryVertexFinder.wExt.vertexOf SecondaryVertexFinder.wTrack1.vertex_id)
    SecondaryVertexFinder.wTrack1 = (1, 5) := by
  have harg : Complex.arg ⟨1, 0⟩ = 0 := by
    rw [show (⟨1, 0⟩ : ℂ) = 1 from Complex.ext (by simp) (by simp)]
    exact Complex.arg_one
  simp only [SecondaryVertexFinder.get_dca, SecondaryVertexFinder.wExt,
    SecondaryVertexFinder.wTrack1, Vec3.cross, atan2]
  norm_num
  rw [harg]
  norm_num [Real.cos_zero, Real.sin_zero]

/-- Evaluation of `get_dca` on the second fixture track. -/
theorem c5_dca2 : SecondaryVertexFinder.get_dca
    (SecondaryVertexFinder.wExt.vertexOf SecondaryVertexFinder.wTrack2.vertex_id)
    SecondaryVertexFinder.wTrack2 = (1, 5) := by
  have harg : Complex.arg ⟨-1, 0⟩ = Real.pi := by
    rw [show (⟨-1, 0⟩ : ℂ) = -1 from Complex.ext (by simp) (by simp)]
    exact Complex.arg_neg_one
  simp only [SecondaryVertexFinder.get_dca, SecondaryVertexFinder.wExt,
    SecondaryVertexFinder.wTrack2, Vec3.cross, atan2]
  norm_num
  rw [harg]
  norm_num [Real.cos_pi, Real.sin_pi]

/-- Evaluation of the circle-circle intersection of the fixture fits: unit
circles at centre distance 8/5 meet in (4/5, -3/5) and (4/5, 3/5). -/
theorem c5_cc : SecondaryVertexFinder.circle_circle_intersection 1 0 0 1 (8 / 5) 0 =
    (true, [4 / 5, -(3 / 5), 4 / 5, 3 / 5]) := by
  have hd : Real.sqrt (((0:ℝ) - 8 / 5) ^ 2 + ((0:ℝ) - 0) ^ 2) = 8 / 5 :=
    sqrt_of_sq (by norm_num) (by norm_num)
  have hh : Real.sqrt ((1:ℝ) * 1 - (1 * 1 - 1 * 1 + 8 / 5 * (8 / 5)) / (2 * (8 / 5)) *
      ((1 * 1 - 1 * 1 + 8 / 5 * (8 / 5)) / (2 * (8 / 5)))) = 3 / 5 :=
    sqrt_of_sq (by norm_num) (by norm_num)
  simp only [SecondaryVertexFinder.circle_circle_intersection]
  rw [hd, if_neg (by norm_num), if_neg (by norm_num), hh]
  norm_num

/-- Evaluation of `findTwoTrackIntersection` on the fixture tracks. -/
theorem c5_find : SecondaryVertexFinder.findTwoTrackIntersection
    SecondaryVertexFinder.wExt.fitpars SecondaryVertexFinder.wTrack1
    SecondaryVertexFinder.wTrack2 (0, 0) (0, 0) =
    (true, (4 / 5, -(3 / 5)), (4 / 5, 3 / 5)) := by
  have hfit1 : SecondaryVertexFinder.wExt.fitpars SecondaryVertexFinder.wTrack1 =
      [1, 0, 0, 0, 0] := by
    simp [SecondaryVertexFinder.wExt, SecondaryVertexFinder.wTrack1]
  have hfit2 : SecondaryVertexFinder.wExt.fitpars SecondaryVertexFinder.wTrack2 =
      [1, 1.6, 0, 0, 0] := by
    simp [SecondaryVertexFinder.wExt, SecondaryVertexFinder.wTrack2]
  simp only [SecondaryVertexFinder.findTwoTrackIntersection, hfit1, hfit2]
  norm_num [List.getD]
  rw [c5_cc]
  norm_num

/-- Evaluation of the skew-line closest approach of the projected fixture
rays: dca 0.5 with PCAs (0,0,0) and (0,0,0.5). -/
theorem c5_pca : SecondaryVertexFinder.findPcaTwoLines ⟨0, 0, 0⟩ ⟨1, 0, 0⟩
    ⟨0, 0, 1 / 2⟩ ⟨3, 4, 0⟩ Vec3.zero Vec3.zero = (1 / 2, ⟨0, 0, 0⟩, ⟨0, 0, 1 / 2⟩) := by
  have hm1 : Vec3.Mag ⟨1, 0, 0⟩ = 1 := by
    unfold Vec3.Mag Vec3.dot
    exact sqrt_of_sq (by norm_num) (by norm_num)
  have hm2 : Vec3.Mag ⟨3, 4, 0⟩ = 5 := by
    unfold Vec3.Mag Vec3.dot
    exact sqrt_of_sq (by norm_num) (by norm_num)
  simp only [SecondaryVertexFinder.findPcaTwoLines, hm1, hm2]
  norm_num [Vec3.cross, Vec3.dot, Vec3.sub_def, Vec3.add_def, Vec3.smul_def]
  have hmc : Vec3.Mag ⟨0, 0, 4 / 5⟩ = 4 / 5 := by
    unfold Vec3.Mag Vec3.dot
    exact sqrt_of_sq (by norm_num) (by norm_num)
  rw [hmc]
  norm_num

/-- Evaluation of the intersection-candidate processing on the first fixture
intersection point. -/
theorem c5_pi1 : SecondaryVertexFinder.processIntersection SecondaryVertexFinder.wParams
    SecondaryVertexFinder.wExt SecondaryVertexFinder.wTrack1 SecondaryVertexFinder.wTrack2
    1 5 1 5 0 0 (4 / 5, -(3 / 5)) = [SecondaryVertexFinder.wCandidate] := by
  have hnorm : Real.sqrt (((4:ℝ) / 5) ^ 2 + (-(3 / 5)) ^ 2) = 1 :=
    sqrt_of_sq (by norm_num) (by norm_num)
  have hrad : Real.sqrt ((4:ℝ) / 5 * (4 / 5) + -(3 / 5) * -(3 / 5)) = 1 :=
    sqrt_of_sq (by norm_num) (by norm_num)
  have hp1 : SecondaryVertexFinder.wExt.project SecondaryVertexFinder.wTrack1 1 =
      some (⟨0, 0, 0⟩, ⟨1, 0, 0⟩) := by
    simp [SecondaryVertexFinder.wExt, SecondaryVertexFinder.wTrack1]
  have hp2 : SecondaryVertexFinder.wExt.project SecondaryVertexFinder.wTrack2 1 =
      some (⟨0, 0, 0.5⟩, ⟨3, 4, 0⟩) := by
    simp [SecondaryVertexFinder.wExt, SecondaryVertexFinder.wTrack2]
  have habs12 : |(1:ℝ) / 2| = 1 / 2 := abs_of_pos (by norm_num)
  simp only [SecondaryVertexFinder.processIntersection]
  rw [if_neg (by rw [hnorm]; norm_num)]
  rw [hrad]
  norm_num
  rw [if_neg (by norm_num [SecondaryVertexFinder.wParams])]
  rw [hp1, hp2]
  norm_num
  rw [if_neg (by rw [habs12]; norm_num [SecondaryVertexFinder.wParams])]
  rw [c5_pca]
  norm_num [SecondaryVertexFinder.wParams, SecondaryVertexFinder.wExt,
    Vec3.add_def, Vec3.smul_def, Vec3.sub_def, habs12]
  have hMag : Vec3.Mag ⟨0, 0, 1 / 4⟩ = 1 / 4 := by
    unfold Vec3.Mag Vec3.dot
    exact sqrt_of_sq (by norm_num) (by norm_num)
  have h25 : Real.sqrt (25:ℝ) = 5 := sqrt_of_sq (by norm_num) (by norm_num)
  have h4 : Real.sqrt (4:ℝ) = 2 := sqrt_of_sq (by norm_num) (by norm_num)
  rw [hMag, h25, if_pos (by norm_num : (1:ℝ) / 10 < 1 / 4),
    if_neg (by norm_num : ¬ (((1:ℝ) + 5) ^ 2 < 32)),
    show ((1:ℝ) + 5) ^ 2 - 32 = 4 by norm_num, h4]
  simp [SecondaryVertexFinder.wCandidate]

/-- Evaluation of the intersection-candidate processing on the second fixture
intersection point (same radius, same candidate). -/
theorem c5_pi2 : SecondaryVertexFinder.processIntersection SecondaryVertexFinder.wParams
    SecondaryVertexFinder.wExt SecondaryVertexFinder.wTrack1 SecondaryVertexFinder.wTrack2
    1 5 1 5 0 0 (4 / 5, 3 / 5) = [SecondaryVertexFinder.wCandidate] := by
  have hnorm : Real.sqrt (((4:ℝ) / 5) ^ 2 + (3 / 5) ^ 2) = 1 :=
    sqrt_of_sq (by norm_num) (by norm_num)
  have hrad : Real.sqrt ((4:ℝ) / 5 * (4 / 5) + 3 / 5 * (3 / 5)) = 1 :=
    sqrt_of_sq (by norm_num) (by norm_num)
  have hp1 : SecondaryVertexFinder.wExt.project SecondaryVertexFinder.wTrack1 1 =
      some (⟨0, 0, 0⟩, ⟨1, 0, 0⟩) := by
    simp [SecondaryVertexFinder.wExt, SecondaryVertexFinder.wTrack1]
  have hp2 : SecondaryVertexFinder.wExt.project SecondaryVertexFinder.wTrack2 1 =
      some (⟨0, 0, 0.5⟩, ⟨3, 4, 0⟩) := by
    simp [SecondaryVertexFinder.wExt, SecondaryVertexFinder.wTrack2]
  have habs12 : |(1:ℝ) / 2| = 1 / 2 := abs_of_pos (by norm_num)
  simp only [SecondaryVertexFinder.processIntersection]
  rw [if_neg (by rw [hnorm]; norm_num)]
  rw [hrad]
  norm_num
  rw [if_neg (by norm_num [SecondaryVertexFinder.wParams])]
  rw [hp1, hp2]
  norm_num
  rw [if_neg (by rw [habs12]; norm_num [SecondaryVertexFinder.wParams])]
  rw [c5_pca]
  norm_num [SecondaryVertexFinder.wParams, SecondaryVertexFinder.wExt,
    Vec3.add_def, Vec3.smul_def, Vec3.sub_def, habs12]
  have hMag : Vec3.Mag ⟨0, 0, 1 / 4⟩ = 1 / 4 := by
    unfold Vec3.Mag Vec3.dot
    exact sqrt_of_sq (by norm_num) (by norm_num)
  have h25 : Real.sqrt (25:ℝ) = 5 := sqrt_of_sq (by norm_num) (by norm_num)
  have h4 : Real.sqrt (4:ℝ) = 2 := sqrt_of_sq (by norm_num) (by norm_num)
  rw [hMag, h25, if_pos (by norm_num : (1:ℝ) / 10 < 1 / 4),
    if_neg (by norm_num : ¬ (((1:ℝ) + 5) ^ 2 < 32)),
    show ((1:ℝ) + 5) ^ 2 - 32 = 4 by norm_num, h4]
  simp [SecondaryVertexFinder.wCandidate]

/-- Evaluation of the outer-loop guards on the first fixture track. -/
theorem c5_outer : SecondaryVertexFinder.outerPass SecondaryVertexFinder.wParams
    SecondaryVertexFinder.wExt SecondaryVertexFinder.wTrack1 = true := by
  simp only [SecondaryVertexFinder.outerPass]
  rw [if_neg (by simp [SecondaryVertexFinder.wExt])]
  rw [if_neg (by simp [SecondaryVertexFinder.wParams])]
  rw [if_neg (by norm_num [SecondaryVertexFinder.wParams, SecondaryVertexFinder.wTrack1])]
  rw [if_neg (by norm_num [SecondaryVertexFinder.wTrack1])]
  rw [c5_dca1]
  norm_num [SecondaryVertexFinder.wParams]

/-- Evaluation of the inner-loop body on the fixture pair: both intersection
slots yield the fixture candidate. -/
theorem c5_pair : SecondaryVertexFinder.processPair SecondaryVertexFinder.wParams
    SecondaryVertexFinder.wExt SecondaryVertexFinder.wTrack1 1 5 0
    SecondaryVertexFinder.wTrack2 =
    [SecondaryVertexFinder.wCandidate, SecondaryVertexFinder.wCandidate] := by
  simp only [SecondaryVertexFinder.processPair]
  rw [if_neg (by simp [SecondaryVertexFinder.wParams])]
  rw [if_neg (by norm_num [SecondaryVertexFinder.wTrack1, SecondaryVertexFinder.wTrack2])]
  rw [if_neg (by norm_num [SecondaryVertexFinder.wParams, SecondaryVertexFinder.wTrack2])]
  rw [if_neg (by norm_num [SecondaryVertexFinder.wTrack2])]
  rw [c5_dca2]
  rw [if_neg (by norm_num)]
  rw [if_neg (by norm_num [SecondaryVertexFinder.wParams])]
  rw [if_neg (by norm_num [SecondaryVertexFinder.wParams])]
  rw [c5_find]
  norm_num
  rw [show SecondaryVertexFinder.wTrack2.has_silicon = false from rfl]
  rw [if_neg Bool.false_ne_true]
  rw [c5_pi1, c5_pi2]
  rfl

/-- Evaluation of `process_event` on the fixture event: the fixture pair is
accepted through both intersection slots. -/
theorem c5_eval : SecondaryVertexFinder.process_event SecondaryVertexFinder.wParams
    SecondaryVertexFinder.wExt
    [SecondaryVertexFinder.wTrack1, SecondaryVertexFinder.wTrack2] =
    [SecondaryVertexFinder.wCandidate, SecondaryVertexFinder.wCandidate] := by
  simp only [SecondaryVertexFinder.process_event]
  rw [if_pos c5_outer, c5_dca1]
  rw [show SecondaryVertexFinder.wTrack1.has_silicon = false from rfl]
  rw [if_neg Bool.false_ne_true]
  simp only [List.flatMap_cons, List.flatMap_nil, List.append_nil, ite_self]
  rw [c5_pair]

/-- Witness for C5: the fixture candidate is emitted, and all the claimed
emission conditions hold for it. -/
theorem c5_witness :
    SecondaryVertexFinder.wCandidate ∈ SecondaryVertexFinder.process_event
      SecondaryVertexFinder.wParams SecondaryVertexFinder.wExt
      [SecondaryVertexFinder.wTrack1, SecondaryVertexFinder.wTrack2] ∧
    (SecondaryVertexFinder.wCandidate.tr1.quality ≤
        SecondaryVertexFinder.wParams.qual_cut ∧
      SecondaryVertexFinder.wCandidate.tr2.quality ≤
        SecondaryVertexFinder.wParams.qual_cut ∧
      20 ≤ SecondaryVertexFinder.wCandidate.tr1.ntpc ∧
      20 ≤ SecondaryVertexFinder.wCandidate.tr2.ntpc ∧
      SecondaryVertexFinder.wCandidate.tr2.charge ≠
        SecondaryVertexFinder.wCandidate.tr1.charge ∧
      SecondaryVertexFinder.wParams.track_dcaxy_cut ≤
        |SecondaryVertexFinder.wCandidate.dca3dxy1| ∧
      SecondaryVertexFinder.wParams.track_dcaz_cut ≤
        |SecondaryVertexFinder.wCandidate.dca3dz1| ∧
      SecondaryVertexFinder.wParams.track_dcaxy_cut ≤
        |SecondaryVertexFinder.wCandidate.dca3dxy2| ∧
      SecondaryVertexFinder.wParams.track_dcaz_cut ≤
        |SecondaryVertexFinder.wCandidate.dca3dz2| ∧
      |SecondaryVertexFinder.wCandidate.pair_dca| ≤
        SecondaryVertexFinder.wParams.two_track_dcacut ∧
      SecondaryVertexFinder.wParams.min_path_cut <
        SecondaryVertexFinder.wCandidate.path) := by
  have hmem : SecondaryVertexFinder.wCandidate ∈ SecondaryVertexFinder.process_event
      SecondaryVertexFinder.wParams SecondaryVertexFinder.wExt
      [SecondaryVertexFinder.wTrack1, SecondaryVertexFinder.wTrack2] := by
    rw [c5_eval]
    exact List.mem_cons_self _ _
  exact ⟨hmem, c5_emission_conditions SecondaryVertexFinder.wParams
    SecondaryVertexFinder.wExt _ SecondaryVertexFinder.wCandidate hmem⟩

end
